import Mathlib

/-!
Shallow embedding of the tree-sitter-markdown external scanner
(src/src/scanner.cc) and proofs about the claims of its specification.

The embedding models:
  - the token alphabet (enum TokenType),
  - block tag bytes (enum Block, kept as Nat byte values),
  - the scanner state (struct Scanner: uint8 fields are Nat values kept
    below 256 by taking `% 256` exactly where the C++ code truncates),
  - the lexer handle (remaining input, a count of consumed bytes, and the
    mark_end position),
  - `Scanner::serialize` / `Scanner::deserialize`,
  - `Scanner::scan`, decomposed into one Lean definition per C++ branch,
    glued together in `scanCore` in the same order as the source.
-/

/-- The token alphabet, mirroring `enum TokenType` in scanner.cc. -/
inductive Tok where
  | LINE_ENDING
  | INDENTATION
  | VIRTUAL_SPACE
  | MATCHING_DONE
  | BLOCK_CLOSE
  | BLOCK_CLOSE_LOOSE
  | BLOCK_CONTINUATION
  | LAZY_CONTINUATION
  | BLOCK_QUOTE_START
  | INDENTED_CHUNK_START
  | ATX_H1_MARKER
  | ATX_H2_MARKER
  | ATX_H3_MARKER
  | ATX_H4_MARKER
  | ATX_H5_MARKER
  | ATX_H6_MARKER
  | SETEXT_H1_UNDERLINE
  | SETEXT_H2_UNDERLINE
  | SETEXT_H2_UNDERLINE_OR_THEMATIC_BREAK
  | THEMATIC_BREAK
  | LIST_MARKER_MINUS
  | LIST_MARKER_PLUS
  | LIST_MARKER_STAR
  | LIST_MARKER_PARENTHETHIS
  | LIST_MARKER_DOT
  | FENCED_CODE_BLOCK_START
  | BLANK_LINE
  | CODE_SPAN_START
  | CODE_SPAN_CLOSE
  | LAST_TOKEN_WHITESPACE
  | LAST_TOKEN_PUNCTUATION
  | EMPHASIS_OPEN_STAR
  | EMPHASIS_OPEN_UNDERSCORE
  | EMPHASIS_CLOSE_STAR
  | EMPHASIS_CLOSE_UNDERSCORE
deriving DecidableEq, Repr

/-- The `valid_symbols` mask passed by the host. -/
abbrev Mask := Tok → Bool

/- Block tag byte values, mirroring `enum Block` in scanner.cc. -/
def BLOCK_QUOTE : Nat := 0
def INDENTED_CODE_BLOCK : Nat := 1
def TIGHT_LIST_ITEM : Nat := 2
def TIGHT_LIST_ITEM_MAX_INDENTATION : Nat := 8
def LOOSE_LIST_ITEM : Nat := 9
def LOOSE_LIST_ITEM_MAX_INDENTATION : Nat := 15
def FENCED_CODE_BLOCK_TILDE : Nat := 16
def FENCED_CODE_BLOCK_BACKTICK : Nat := 17

/-- `is_list_item` from scanner.cc. -/
def is_list_item (b : Nat) : Prop :=
  TIGHT_LIST_ITEM ≤ b ∧ b ≤ LOOSE_LIST_ITEM_MAX_INDENTATION

instance (b : Nat) : Decidable (is_list_item b) := by
  unfold is_list_item; infer_instance

/-- A loose list item tag byte (range `LOOSE_LIST_ITEM ..
LOOSE_LIST_ITEM_MAX_INDENTATION`), as tested at the close sites. -/
def isLooseItem (b : Nat) : Prop :=
  LOOSE_LIST_ITEM ≤ b ∧ b ≤ LOOSE_LIST_ITEM_MAX_INDENTATION

instance (b : Nat) : Decidable (isLooseItem b) := by
  unfold isLooseItem; infer_instance

/-- `list_item_indentation` from scanner.cc (int arithmetic, no underflow
for the in-range tag bytes: `b - 2 + 2` is `b`, `b - 9 + 2` is `b - 7`). -/
def list_item_indentation (b : Nat) : Nat :=
  if b ≤ TIGHT_LIST_ITEM_MAX_INDENTATION then b else b - 9 + 2

/-- `is_punctuation` from scanner.cc (ASCII ranges). -/
def is_punctuation (c : Char) : Prop :=
  (33 ≤ c.toNat ∧ c.toNat ≤ 47) ∨ (58 ≤ c.toNat ∧ c.toNat ≤ 64) ∨
  (91 ≤ c.toNat ∧ c.toNat ≤ 96) ∨ (123 ≤ c.toNat ∧ c.toNat ≤ 126)

instance (c : Char) : Decidable (is_punctuation c) := by
  unfold is_punctuation; infer_instance

/-- `is_whitespace` from scanner.cc. -/
def is_whitespace (c : Char) : Prop :=
  c = ' ' ∨ c = '\t' ∨ c = '\n' ∨ c = '\r'

instance (c : Char) : Decidable (is_whitespace c) := by
  unfold is_whitespace; infer_instance

/-- `is_punctuation` lifted to the lexer lookahead (`0` at EOF in C++,
which is in none of the ASCII ranges). -/
def isPunctLa (la : Option Char) : Prop :=
  match la with
  | some c => is_punctuation c
  | none => False

instance (la : Option Char) : Decidable (isPunctLa la) := by
  unfold isPunctLa; cases la <;> infer_instance

/-- `is_whitespace` lifted to the lexer lookahead. -/
def isWsLa (la : Option Char) : Prop :=
  match la with
  | some c => is_whitespace c
  | none => False

instance (la : Option Char) : Decidable (isWsLa la) := by
  unfold isWsLa; cases la <;> infer_instance

/-- The scanner's persistent state (struct Scanner).  All uint8 fields are
Nats; every write the C++ code performs on them is modelled with the same
`% 256` truncation. -/
structure Scanner where
  open_blocks : List Nat
  matched : Nat
  indentation : Nat
  column : Nat
  code_span_delimiter_length : Nat
  num_emphasis_delimiters : Nat
  num_emphasis_delimiters_left : Nat
  emphasis_delimiters_is_open : Nat
deriving DecidableEq, Repr

/-- The scanner state produced by `deserialize(NULL, 0)` (the constructor). -/
def freshScanner : Scanner :=
  ⟨[], 0, 0, 0, 0, 0, 0, 0⟩

/-- The lexer handle: remaining input, number of bytes consumed since the
start of this scan call, and the `mark_end` position (in consumed bytes),
`none` when `mark_end` was never called. -/
structure Lexer where
  rest : List Char
  consumed : Nat
  marked : Option Nat
deriving DecidableEq, Repr

def Lexer.lookahead (lx : Lexer) : Option Char := lx.rest.head?

def Lexer.eof (lx : Lexer) : Prop := lx.rest = []

instance (lx : Lexer) : Decidable lx.eof := by
  unfold Lexer.eof; infer_instance

/-- `lexer->mark_end(lexer)`. -/
def Lexer.markEnd (lx : Lexer) : Lexer :=
  { lx with marked := some lx.consumed }

/-- The lexer movement of `lexer->advance`: at EOF it is a no-op. -/
def lxAdv (lx : Lexer) : Lexer :=
  { lx with rest := lx.rest.tail,
            consumed := lx.consumed + (if lx.rest.isEmpty then 0 else 1) }

/-- Columns consumed by one `advance`: `4 - column % 4` for a tab
(i.e. 4 when the column is a multiple of 4), otherwise 1. -/
def stepSize (c : Char) (col : Nat) : Nat :=
  if c = '\t' then (if col % 4 = 0 then 4 else 4 - col % 4) else 1

structure AdvRes where
  size : Nat
  col : Nat
  lx : Lexer
deriving Repr

/-- `Scanner::advance`: returns the size, the updated (uint8) column, and
the moved lexer.  At EOF the C++ lookahead is 0 (not a tab), so size is 1
and the column still increments. -/
def advRes (col : Nat) (lx : Lexer) : AdvRes :=
  let sz := match lx.rest.head? with
    | some c => stepSize c col
    | none => 1
  ⟨sz, (col + sz) % 256, lxAdv lx⟩

/-- Result of a scanning loop: iterations done, total columns consumed,
final column, remaining input, bytes consumed. -/
structure RunRes where
  count : Nat
  cols : Nat
  col : Nat
  rest : List Char
  consumed : Nat
deriving Repr

/-- A `while (p(lookahead)) advance;` loop, counting iterations and
column-widths, threading the uint8 column. -/
def runWhile (p : Char → Bool) : List Char → Nat → Nat → RunRes
  | [], col, consumed => ⟨0, 0, col, [], consumed⟩
  | c :: rs, col, consumed =>
    if p c then
      let sz := stepSize c col
      let r := runWhile p rs ((col + sz) % 256) (consumed + 1)
      ⟨r.count + 1, sz + r.cols, r.col, r.rest, r.consumed⟩
    else ⟨0, 0, col, c :: rs, consumed⟩

/-- The bounded `#` loop of the ATX branch:
`while (lookahead == '#' && level <= 6) { advance; level++; }`. -/
def atxLoop : List Char → Nat → Nat → Nat → RunRes
  | [], level, col, consumed => ⟨level, 0, col, [], consumed⟩
  | c :: rs, level, col, consumed =>
    if c = '#' ∧ level ≤ 6 then
      atxLoop rs (level + 1) ((col + stepSize c col) % 256) (consumed + 1)
    else ⟨level, 0, col, c :: rs, consumed⟩

/-- Result of the `-` / `*` marker loops. -/
structure MarkerLoopRes where
  count : Nat
  extra : Nat
  minusAfterWs : Bool
  col : Nat
  rest : List Char
  consumed : Nat
  marked : Option Nat
deriving Repr

/-- The interleaved `-` / whitespace loop of the `-` branch, including the
conditional `mark_end` before a second `-` that follows `- ` and the
`minus_after_whitespace` bookkeeping. -/
def minusLoop (checkBlock : Bool) :
    List Char → Nat → Nat → Bool → Bool → Nat → Nat → Option Nat → MarkerLoopRes
  | [], mc, extra, _, mAfterWs, col, consumed, marked =>
    ⟨mc, extra, mAfterWs, col, [], consumed, marked⟩
  | c :: rs, mc, extra, wsAfter, mAfterWs, col, consumed, marked =>
    if c = '-' then
      let marked2 := if mc = 1 ∧ 1 ≤ extra ∧ ¬checkBlock then some consumed else marked
      minusLoop checkBlock rs (mc + 1) extra wsAfter wsAfter
        ((col + stepSize c col) % 256) (consumed + 1) marked2
    else if c = ' ' ∨ c = '\t' then
      let sz := stepSize c col
      minusLoop checkBlock rs mc (if mc = 1 then extra + sz else extra) true mAfterWs
        ((col + sz) % 256) (consumed + 1) marked
    else ⟨mc, extra, mAfterWs, col, c :: rs, consumed, marked⟩

/-- The interleaved `*` / whitespace loop of the `*` opener branch
(it has no `minus_after_whitespace` analogue; the Bool field is unused). -/
def starLoop (checkBlock : Bool) :
    List Char → Nat → Nat → Nat → Nat → Option Nat → MarkerLoopRes
  | [], sc, extra, col, consumed, marked => ⟨sc, extra, false, col, [], consumed, marked⟩
  | c :: rs, sc, extra, col, consumed, marked =>
    if c = '*' then
      let marked2 := if sc = 1 ∧ 1 ≤ extra ∧ ¬checkBlock then some consumed else marked
      starLoop checkBlock rs (sc + 1) extra ((col + stepSize c col) % 256) (consumed + 1) marked2
    else if c = ' ' ∨ c = '\t' then
      let sz := stepSize c col
      starLoop checkBlock rs sc extra ((col + sz) % 256) (consumed + 1) marked
    else ⟨sc, extra, false, col, c :: rs, consumed, marked⟩

/-- The `_` / whitespace loop of the `_` thematic break branch; `count`
is the number of underscores only. -/
def underscoreLoop : List Char → Nat → Nat → Nat → RunRes
  | [], uc, col, consumed => ⟨uc, 0, col, [], consumed⟩
  | c :: rs, uc, col, consumed =>
    if c = '_' then
      underscoreLoop rs (uc + 1) ((col + stepSize c col) % 256) (consumed + 1)
    else if c = ' ' ∨ c = '\t' then
      underscoreLoop rs uc ((col + stepSize c col) % 256) (consumed + 1)
    else ⟨uc, 0, col, c :: rs, consumed⟩

/-! ## serialize / deserialize -/

/-- The byte image written by `Scanner::serialize`: seven scalar bytes then
at most `255 - 7 = 248` block-stack bytes (each value truncated to a byte,
as the C++ char stores do). -/
def serializeBytes (s : Scanner) : List Nat :=
  [s.matched % 256, s.indentation % 256, s.column % 256,
   s.code_span_delimiter_length % 256, s.num_emphasis_delimiters % 256,
   s.num_emphasis_delimiters_left % 256, s.emphasis_delimiters_is_open % 256] ++
  (s.open_blocks.take 248).map (· % 256)

/-- The length returned by `Scanner::serialize`. -/
def serializeLength (s : Scanner) : Nat :=
  7 + min s.open_blocks.length 248

/-- The block count computed by `Scanner::deserialize` when `length > 0`:
`size_t blocks_count = length - i` with `i = 7`, i.e. a 64-bit wrapping
subtraction. -/
def deserializeBlocksCount (length : Nat) : Nat :=
  (length + 2 ^ 64 - 7) % 2 ^ 64

/-- Number of bytes of `buffer` that `Scanner::deserialize` reads:
nothing for `length = 0`, otherwise the seven scalar bytes plus
`blocks_count` stack bytes (the `memcpy`). -/
def deserializeReadExtent (length : Nat) : Nat :=
  if length = 0 then 0 else 7 + deserializeBlocksCount length

/-- `Scanner::deserialize`.  Bytes the C++ code reads beyond the end of
the provided buffer are modelled as 0. -/
def deserialize (buffer : List Nat) (length : Nat) : Scanner :=
  if length = 0 then freshScanner
  else
    { matched := buffer.getD 0 0
      indentation := buffer.getD 1 0
      column := buffer.getD 2 0
      code_span_delimiter_length := buffer.getD 3 0
      num_emphasis_delimiters := buffer.getD 4 0
      num_emphasis_delimiters_left := buffer.getD 5 0
      emphasis_delimiters_is_open := buffer.getD 6 0
      open_blocks :=
        (List.range (deserializeBlocksCount length)).map (fun j => buffer.getD (7 + j) 0) }

/-! ## The scan function -/

/-- Result of one scan call: the returned Bool, the `result_symbol` (when
set), the final scanner state, and the final lexer. -/
structure ScanOut where
  ok : Bool
  sym : Option Tok
  s : Scanner
  lx : Lexer
deriving DecidableEq, Repr

/-- Result of one C++ branch: either a `return` out of `scan`, or a fall
through (`break` / failed condition) carrying the possibly mutated state
and lexer. -/
inductive BranchRes where
  | done (out : ScanOut)
  | fall (s : Scanner) (lx : Lexer)
deriving Repr

/-- The close token chosen for a popped block, per the
`LOOSE_LIST_ITEM .. LOOSE_LIST_ITEM_MAX_INDENTATION` range tests. -/
def closeSymFor (b : Nat) : Tok :=
  if isLooseItem b then .BLOCK_CLOSE_LOOSE else .BLOCK_CLOSE

/-- Lines 170-182: at EOF pop the top block (if any) and emit its close
token; the valid_symbols mask is not consulted. -/
def scanEof (s : Scanner) (lx : Lexer) : ScanOut :=
  if s.open_blocks.length ≠ 0 then
    ⟨true, some (closeSymFor (s.open_blocks.getD (s.open_blocks.length - 1) 0)),
     { s with open_blocks := s.open_blocks.dropLast }, lx⟩
  else ⟨false, none, s, lx⟩

/-- Lines 760-769: pop the top block and emit its close token. -/
def scanUnwind (s : Scanner) (lx : Lexer) : ScanOut :=
  ⟨true, some (closeSymFor (s.open_blocks.getD (s.open_blocks.length - 1) 0)),
   { s with open_blocks := s.open_blocks.dropLast }, lx⟩

/-- The tight-to-loose in-place conversion of the blank-line branch
(lines 370-374). -/
def loosen (b : Nat) : Nat :=
  if TIGHT_LIST_ITEM ≤ b ∧ b ≤ TIGHT_LIST_ITEM_MAX_INDENTATION then
    b + (LOOSE_LIST_ITEM - TIGHT_LIST_ITEM)
  else b

/-- The ATX result token `ATX_H1_MARKER + (level - 1)` for level 1..6
(the emit site guards `level <= 6`, and level ≥ 1 because the branch is
entered on a `#` lookahead). -/
def atxToken (level : Nat) : Tok :=
  match level with
  | 1 => .ATX_H1_MARKER
  | 2 => .ATX_H2_MARKER
  | 3 => .ATX_H3_MARKER
  | 4 => .ATX_H4_MARKER
  | 5 => .ATX_H5_MARKER
  | _ => .ATX_H6_MARKER

/-- Line 321: `matching = !check_block && matched < open_blocks.size()`. -/
def matchingProp (checkBlock : Bool) (s : Scanner) : Prop :=
  checkBlock = false ∧ s.matched < s.open_blocks.length

instance (cb : Bool) (s : Scanner) : Decidable (matchingProp cb s) := by
  unfold matchingProp; infer_instance

/-- The right-flanking test of lines 253-254 and 290-291; the previous
token class is communicated through the mask bits. -/
def rightFlanking (valid : Mask) (la : Option Char) : Prop :=
  ¬valid .LAST_TOKEN_WHITESPACE ∧
  (¬valid .LAST_TOKEN_PUNCTUATION ∨ isPunctLa la ∨ isWsLa la)

instance (valid : Mask) (la : Option Char) : Decidable (rightFlanking valid la) := by
  unfold rightFlanking; infer_instance

/-- The left-flanking test of lines 259-260 and 292-293. -/
def leftFlanking (valid : Mask) (la : Option Char) : Prop :=
  ¬isWsLa la ∧
  (¬isPunctLa la ∨ valid .LAST_TOKEN_PUNCTUATION ∨ valid .LAST_TOKEN_WHITESPACE)

instance (valid : Mask) (la : Option Char) : Decidable (leftFlanking valid la) := by
  unfold leftFlanking; infer_instance

/-- The `\r` case of Phase D (lines 190-203): note the third `advance`,
which consumes one byte beyond the line ending. -/
def phaseDCr (s : Scanner) (lx : Lexer) (valid : Mask) : ScanOut :=
  if valid .LINE_ENDING then
    let lx1 := lxAdv lx
    let lx2 := if lx1.lookahead = some '\n' then lxAdv lx1 else lx1
    let lx3 := lxAdv lx2
    ⟨true, some .LINE_ENDING, { s with matched := 0, indentation := 0, column := 0 }, lx3⟩
  else ⟨false, none, s, lx⟩

/-- The `\n` case of Phase D (lines 204-213). -/
def phaseDNl (s : Scanner) (lx : Lexer) (valid : Mask) : ScanOut :=
  if valid .LINE_ENDING then
    ⟨true, some .LINE_ENDING, { s with matched := 0, indentation := 0, column := 0 }, lxAdv lx⟩
  else ⟨false, none, s, lx⟩

/-- The backtick (code span) case of Phase D (lines 214-230). -/
def phaseDBacktick (s : Scanner) (lx : Lexer) (valid : Mask) : ScanOut :=
  if valid .CODE_SPAN_START ∨ valid .CODE_SPAN_CLOSE then
    let r := runWhile (· == '\x60') lx.rest s.column lx.consumed
    let lx1 : Lexer := ⟨r.rest, r.consumed, lx.marked⟩
    if r.count = s.code_span_delimiter_length ∧ valid .CODE_SPAN_CLOSE then
      ⟨true, some .CODE_SPAN_CLOSE, { s with column := r.col }, lx1⟩
    else if valid .CODE_SPAN_START then
      ⟨true, some .CODE_SPAN_START,
       { s with column := r.col, code_span_delimiter_length := r.count % 256 }, lx1⟩
    else ⟨false, none, { s with column := r.col }, lx1⟩
  else ⟨false, none, s, lx⟩

/-- The `*` case of Phase D (lines 231-267): continue a pending emphasis
run, or start a new one, choosing the polarity by the flanking rules. -/
def phaseDStar (s : Scanner) (lx : Lexer) (valid : Mask) : ScanOut :=
  if 0 < s.num_emphasis_delimiters_left then
    if s.emphasis_delimiters_is_open ≠ 0 ∧ valid .EMPHASIS_OPEN_STAR then
      ⟨true, some .EMPHASIS_OPEN_STAR,
       { s with column := (advRes s.column lx).col,
                num_emphasis_delimiters_left := (s.num_emphasis_delimiters_left + 255) % 256 },
       lxAdv lx⟩
    else if valid .EMPHASIS_CLOSE_STAR then
      ⟨true, some .EMPHASIS_CLOSE_STAR,
       { s with column := (advRes s.column lx).col,
                num_emphasis_delimiters_left := (s.num_emphasis_delimiters_left + 255) % 256 },
       lxAdv lx⟩
    else ⟨false, none, s, lx⟩
  else if valid .EMPHASIS_OPEN_STAR ∨ valid .EMPHASIS_CLOSE_STAR then
    let a := advRes s.column lx
    let lxm := a.lx.markEnd
    let r := runWhile (· == '*') lxm.rest a.col lxm.consumed
    let lx1 : Lexer := ⟨r.rest, r.consumed, lxm.marked⟩
    let num := (1 + r.count) % 256
    if valid .EMPHASIS_CLOSE_STAR ∧ rightFlanking valid lx1.lookahead then
      ⟨true, some .EMPHASIS_CLOSE_STAR,
       { s with column := r.col, num_emphasis_delimiters := num,
                num_emphasis_delimiters_left := (num + 255) % 256,
                emphasis_delimiters_is_open := 0 }, lx1⟩
    else if leftFlanking valid lx1.lookahead then
      ⟨true, some .EMPHASIS_OPEN_STAR,
       { s with column := r.col, num_emphasis_delimiters := num,
                num_emphasis_delimiters_left := (num + 255) % 256,
                emphasis_delimiters_is_open := 1 }, lx1⟩
    else
      ⟨false, none,
       { s with column := r.col, num_emphasis_delimiters := num,
                num_emphasis_delimiters_left := num }, lx1⟩
  else ⟨false, none, s, lx⟩

/-- The `_` case of Phase D (lines 268-306). -/
def phaseDUnderscore (s : Scanner) (lx : Lexer) (valid : Mask) : ScanOut :=
  if 0 < s.num_emphasis_delimiters_left then
    if s.emphasis_delimiters_is_open ≠ 0 ∧ valid .EMPHASIS_OPEN_UNDERSCORE then
      ⟨true, some .EMPHASIS_OPEN_UNDERSCORE,
       { s with column := (advRes s.column lx).col,
                num_emphasis_delimiters_left := (s.num_emphasis_delimiters_left + 255) % 256 },
       lxAdv lx⟩
    else if valid .EMPHASIS_CLOSE_UNDERSCORE then
      ⟨true, some .EMPHASIS_CLOSE_UNDERSCORE,
       { s with column := (advRes s.column lx).col,
                num_emphasis_delimiters_left := (s.num_emphasis_delimiters_left + 255) % 256 },
       lxAdv lx⟩
    else ⟨false, none, s, lx⟩
  else if valid .EMPHASIS_OPEN_UNDERSCORE ∨ valid .EMPHASIS_CLOSE_UNDERSCORE then
    let a := advRes s.column lx
    let lxm := a.lx.markEnd
    let r := runWhile (· == '_') lxm.rest a.col lxm.consumed
    let lx1 : Lexer := ⟨r.rest, r.consumed, lxm.marked⟩
    let num := (1 + r.count) % 256
    if valid .EMPHASIS_CLOSE_UNDERSCORE ∧ rightFlanking valid lx1.lookahead ∧
       (¬leftFlanking valid lx1.lookahead ∨ isPunctLa lx1.lookahead) then
      ⟨true, some .EMPHASIS_CLOSE_UNDERSCORE,
       { s with column := r.col, num_emphasis_delimiters := num,
                num_emphasis_delimiters_left := (num + 255) % 256,
                emphasis_delimiters_is_open := 0 }, lx1⟩
    else if leftFlanking valid lx1.lookahead ∧
            (¬rightFlanking valid lx1.lookahead ∨ valid .LAST_TOKEN_PUNCTUATION) then
      ⟨true, some .EMPHASIS_OPEN_UNDERSCORE,
       { s with column := r.col, num_emphasis_delimiters := num,
                num_emphasis_delimiters_left := (num + 255) % 256,
                emphasis_delimiters_is_open := 1 }, lx1⟩
    else
      ⟨false, none,
       { s with column := r.col, num_emphasis_delimiters := num,
                num_emphasis_delimiters_left := num }, lx1⟩
  else ⟨false, none, s, lx⟩

/-- Phase D (lines 183-309): `matched > open_blocks.size()`.  Virtual
space, line endings, code-span delimiters, emphasis delimiters. -/
def phaseD (s : Scanner) (lx : Lexer) (valid : Mask) : ScanOut :=
  if valid .VIRTUAL_SPACE ∧ 0 < s.indentation then
    ⟨true, some .VIRTUAL_SPACE, { s with indentation := s.indentation - 1 }, lx⟩
  else if lx.lookahead = some '\r' then phaseDCr s lx valid
  else if lx.lookahead = some '\n' then phaseDNl s lx valid
  else if lx.lookahead = some '`' then phaseDBacktick s lx valid
  else if lx.lookahead = some '*' then phaseDStar s lx valid
  else if lx.lookahead = some '_' then phaseDUnderscore s lx valid
  else ⟨false, none, s, lx⟩

/-- Lines 310-320: the INDENTATION preamble token. -/
def branchIndentPre (s : Scanner) (lx : Lexer) (valid : Mask) : Option ScanOut :=
  if valid .INDENTATION ∧ (lx.lookahead = some ' ' ∨ lx.lookahead = some '\t') then
    let r := runWhile (fun c => c == ' ' || c == '\t') lx.rest s.column lx.consumed
    some ⟨true, some .INDENTATION,
      { s with indentation := (s.indentation + r.cols) % 256, column := r.col },
      ⟨r.rest, r.consumed, lx.marked⟩⟩
  else none

/-- Lines 329-348: indented chunk start / indented code block continuation. -/
def branchIndentedChunk (checkBlock : Bool) (matching : Prop) [Decidable matching]
    (s : Scanner) (lx : Lexer) (valid : Mask) : BranchRes :=
  if (valid .INDENTED_CHUNK_START ∧ ¬matching) ∨
     (valid .BLOCK_CONTINUATION ∧ matching ∧
      s.open_blocks.getD s.matched 0 = INDENTED_CODE_BLOCK) then
    if 4 ≤ s.indentation ∧ lx.lookahead ≠ some '\n' ∧ lx.lookahead ≠ some '\r' then
      if matching then
        .done (if checkBlock then ⟨true, none, s, lx⟩
               else ⟨true, some .BLOCK_CONTINUATION,
                     { s with indentation := s.indentation - 4,
                              matched := (s.matched + 2) % 256 }, lx⟩)
      else if ¬valid .LAZY_CONTINUATION then
        .done (if checkBlock then ⟨true, none, s, lx⟩
               else ⟨true, some .INDENTED_CHUNK_START,
                     { s with open_blocks := s.open_blocks ++ [INDENTED_CODE_BLOCK],
                              indentation := s.indentation - 4,
                              matched := (s.matched + 2) % 256 }, lx⟩)
      else .fall s lx
    else .fall s lx
  else .fall s lx

/-- Lines 349-362: list item continuation. -/
def branchListCont (matching : Prop) [Decidable matching]
    (s : Scanner) (lx : Lexer) (valid : Mask) : BranchRes :=
  if valid .BLOCK_CONTINUATION ∧ matching ∧
     is_list_item (s.open_blocks.getD s.matched 0) then
    if list_item_indentation (s.open_blocks.getD s.matched 0) ≤ s.indentation then
      .done ⟨true, some .BLOCK_CONTINUATION,
        { s with indentation :=
                   s.indentation - list_item_indentation (s.open_blocks.getD s.matched 0),
                 matched := (s.matched + 1) % 256 }, lx⟩
    else if lx.lookahead = some '\n' ∨ lx.lookahead = some '\r' then
      .done ⟨true, some .BLOCK_CONTINUATION,
        { s with indentation := 0, matched := (s.matched + 1) % 256 }, lx⟩
    else .fall s lx
  else .fall s lx

/-- Lines 364-378: blank line; converts every tight list item on the
stack to loose. -/
def branchBlank (checkBlock : Bool) (matching : Prop) [Decidable matching]
    (s : Scanner) (lx : Lexer) (valid : Mask) : BranchRes :=
  if valid .BLANK_LINE ∧ ¬matching then
    .done (if checkBlock then ⟨true, none, s, lx⟩
           else ⟨true, some .BLANK_LINE,
                 { s with matched := (s.matched + 1) % 256,
                          open_blocks := s.open_blocks.map loosen }, lx⟩)
  else .fall s lx

/-- Lines 379-397: block quote start / continuation. -/
def branchQuote (checkBlock : Bool) (matching : Prop) [Decidable matching]
    (s : Scanner) (lx : Lexer) (valid : Mask) : BranchRes :=
  if (valid .BLOCK_QUOTE_START ∧ ¬matching) ∨
     (valid .BLOCK_CONTINUATION ∧ matching ∧
      s.open_blocks.getD s.matched 0 = BLOCK_QUOTE) then
    .done (if checkBlock then ⟨true, none, s, lx⟩
     else
      let a1 := advRes s.column lx
      if a1.lx.lookahead = some ' ' ∨ a1.lx.lookahead = some '\t' then
        let a2 := advRes a1.col a1.lx
        ⟨true, some (if matching then Tok.BLOCK_CONTINUATION else Tok.BLOCK_QUOTE_START),
         { s with indentation := a2.size - 1, column := a2.col,
                  matched := (s.matched + 1) % 256,
                  open_blocks := if matching then s.open_blocks
                                 else s.open_blocks ++ [BLOCK_QUOTE] }, a2.lx⟩
      else
        ⟨true, some (if matching then Tok.BLOCK_CONTINUATION else Tok.BLOCK_QUOTE_START),
         { s with indentation := 0, column := a1.col,
                  matched := (s.matched + 1) % 256,
                  open_blocks := if matching then s.open_blocks
                                 else s.open_blocks ++ [BLOCK_QUOTE] }, a1.lx⟩)
  else .fall s lx

/-- Lines 398-428: tilde fence open / close. -/
def branchTilde (checkBlock : Bool) (matching : Prop) [Decidable matching]
    (s : Scanner) (lx : Lexer) (valid : Mask) : BranchRes :=
  if (¬matching ∧ valid .FENCED_CODE_BLOCK_START) ∨
     (matching ∧ valid .BLOCK_CLOSE ∧
      s.open_blocks.getD s.matched 0 = FENCED_CODE_BLOCK_TILDE) then
    let lx0 := if checkBlock then lx else lx.markEnd
    let r := runWhile (· == '~') lx0.rest s.column lx0.consumed
    let lx1 : Lexer := ⟨r.rest, r.consumed, lx0.marked⟩
    if matching then
      if s.code_span_delimiter_length ≤ r.count ∧
         (lx1.lookahead = some '\n' ∨ lx1.lookahead = some '\r') then
        .done ⟨true, some .BLOCK_CLOSE,
          { s with open_blocks := s.open_blocks.dropLast,
                   matched := (s.matched + 1) % 256, indentation := 0, column := r.col },
          lx1.markEnd⟩
      else .fall { s with column := r.col } lx1
    else
      if 3 ≤ r.count then
        .done (if checkBlock then ⟨true, none, { s with column := r.col }, lx1⟩
               else ⟨true, some .FENCED_CODE_BLOCK_START,
                     { s with open_blocks := s.open_blocks ++ [FENCED_CODE_BLOCK_TILDE],
                              code_span_delimiter_length := r.count % 256,
                              matched := (s.matched + 2) % 256, indentation := 0,
                              column := r.col }, lx1.markEnd⟩)
      else .fall { s with column := r.col } lx1
  else .fall s lx

/-- Lines 430-460: backtick fence open / close. -/
def branchBacktick (checkBlock : Bool) (matching : Prop) [Decidable matching]
    (s : Scanner) (lx : Lexer) (valid : Mask) : BranchRes :=
  if (¬matching ∧ valid .FENCED_CODE_BLOCK_START) ∨
     (matching ∧ valid .BLOCK_CLOSE ∧
      s.open_blocks.getD s.matched 0 = FENCED_CODE_BLOCK_BACKTICK) then
    let lx0 := if checkBlock then lx else lx.markEnd
    let r := runWhile (· == '`') lx0.rest s.column lx0.consumed
    let lx1 : Lexer := ⟨r.rest, r.consumed, lx0.marked⟩
    if matching then
      if s.code_span_delimiter_length ≤ r.count then
        .done ⟨true, some .BLOCK_CLOSE,
          { s with open_blocks := s.open_blocks.dropLast,
                   matched := (s.matched + 1) % 256, indentation := 0, column := r.col },
          lx1.markEnd⟩
      else .fall { s with column := r.col } lx1
    else
      if 3 ≤ r.count ∧ (lx1.lookahead = some '\n' ∨ lx1.lookahead = some '\r') then
        .done (if checkBlock then ⟨true, none, { s with column := r.col }, lx1⟩
               else ⟨true, some .FENCED_CODE_BLOCK_START,
                     { s with open_blocks := s.open_blocks ++ [FENCED_CODE_BLOCK_BACKTICK],
                              code_span_delimiter_length := r.count % 256,
                              matched := (s.matched + 2) % 256, indentation := 0,
                              column := r.col }, lx1.markEnd⟩)
      else .fall { s with column := r.col } lx1
  else .fall s lx

/-- Lines 462-481: ATX heading markers.  Only the `ATX_H1_MARKER` mask bit
is tested, whatever the level. -/
def branchAtx (checkBlock : Bool) (matching : Prop) [Decidable matching]
    (s : Scanner) (lx : Lexer) (valid : Mask) : BranchRes :=
  if valid .ATX_H1_MARKER ∧ s.indentation ≤ 3 ∧ ¬matching then
    let lx0 := if checkBlock then lx else lx.markEnd
    let r := atxLoop lx0.rest 0 s.column lx0.consumed
    let lx1 : Lexer := ⟨r.rest, r.consumed, lx0.marked⟩
    if r.count ≤ 6 ∧ (lx1.lookahead = some ' ' ∨ lx1.lookahead = some '\t' ∨
                      lx1.lookahead = some '\n' ∨ lx1.lookahead = some '\r') then
      .done (if checkBlock then ⟨true, none, { s with column := r.col }, lx1⟩
             else ⟨true, some (atxToken r.count),
                   { s with matched := (s.matched + 1) % 256, indentation := 0,
                            column := r.col }, lx1.markEnd⟩)
    else .fall { s with column := r.col } lx1
  else .fall s lx

/-- Lines 482-498: Setext H1 underline. -/
def branchEq (checkBlock : Bool) (matching : Prop) [Decidable matching]
    (s : Scanner) (lx : Lexer) (valid : Mask) : BranchRes :=
  if ¬checkBlock ∧ valid .SETEXT_H1_UNDERLINE ∧ ¬matching then
    let lx0 := lx.markEnd
    let r1 := runWhile (· == '=') lx0.rest s.column lx0.consumed
    let r2 := runWhile (fun c => c == ' ' || c == '\t') r1.rest r1.col r1.consumed
    let lx1 : Lexer := ⟨r2.rest, r2.consumed, lx0.marked⟩
    if lx1.lookahead = some '\n' ∨ lx1.lookahead = some '\r' then
      .done ⟨true, some .SETEXT_H1_UNDERLINE,
        { s with matched := (s.matched + 1) % 256, column := r2.col }, lx1.markEnd⟩
    else .fall { s with column := r2.col } lx1
  else .fall s lx

/-- The shared list-item push of the `+`, ordered, `-`, `*` branches:
`extra_indentation--` has already happened (`e` is the decremented value). -/
def pushListItem (s : Scanner) (e : Nat) (col : Nat) : Scanner :=
  if e ≤ 3 then
    { s with open_blocks := s.open_blocks ++ [TIGHT_LIST_ITEM + (e + s.indentation)],
             indentation := 0, matched := (s.matched + 1) % 256, column := col }
  else
    { s with open_blocks := s.open_blocks ++ [TIGHT_LIST_ITEM + s.indentation],
             indentation := e % 256, matched := (s.matched + 1) % 256, column := col }

/-- Lines 499-524: the `+` list marker. -/
def branchPlus (checkBlock : Bool) (matching : Prop) [Decidable matching]
    (s : Scanner) (lx : Lexer) (valid : Mask) : BranchRes :=
  if ¬matching ∧ s.indentation ≤ 3 ∧ valid .LIST_MARKER_PLUS then
    let lx0 := if checkBlock then lx else lx.markEnd
    let a := advRes s.column lx0
    let r := runWhile (fun c => c == ' ' || c == '\t') a.lx.rest a.col a.lx.consumed
    let lx1 : Lexer := ⟨r.rest, r.consumed, lx0.marked⟩
    if 1 ≤ r.cols then
      if checkBlock then .done ⟨true, none, { s with column := r.col }, lx1⟩
      else .done ⟨true, some .LIST_MARKER_PLUS, pushListItem s (r.cols - 1) r.col, lx1.markEnd⟩
    else .fall { s with column := r.col } lx1
  else .fall s lx

/-- Lines 526-577: ordered list markers (digits then `.` or `)`). -/
def branchDigits (checkBlock : Bool) (matching : Prop) [Decidable matching]
    (s : Scanner) (lx : Lexer) (valid : Mask) : BranchRes :=
  if ¬matching ∧ s.indentation ≤ 3 ∧
     (valid .LIST_MARKER_PLUS ∨ valid .LIST_MARKER_PARENTHETHIS ∨ valid .LIST_MARKER_DOT) then
    let lx0 := if checkBlock then lx else lx.markEnd
    let rd := runWhile (fun c => decide ('0' ≤ c ∧ c ≤ '9')) lx0.rest s.column lx0.consumed
    let lxd : Lexer := ⟨rd.rest, rd.consumed, lx0.marked⟩
    if 1 ≤ rd.count ∧ rd.count ≤ 9 then
      if lxd.lookahead = some '.' ∨ lxd.lookahead = some ')' then
        let sym := if lxd.lookahead = some '.' then Tok.LIST_MARKER_DOT
                   else Tok.LIST_MARKER_PARENTHETHIS
        let a := advRes rd.col lxd
        let r := runWhile (fun c => c == ' ' || c == '\t') a.lx.rest a.col a.lx.consumed
        let lx1 : Lexer := ⟨r.rest, r.consumed, lx0.marked⟩
        if 1 ≤ r.cols then
          if checkBlock then .done ⟨true, none, { s with column := r.col }, lx1⟩
          else .done ⟨true, some sym, pushListItem s (r.cols - 1) r.col, lx1.markEnd⟩
        else .fall { s with column := r.col } lx1
      else .fall { s with column := rd.col } lxd
    else .fall { s with column := rd.col } lxd
  else .fall s lx

/-- Lines 579-654: the `-` dispatcher (thematic break / Setext H2 /
list marker minus). -/
def branchMinus (checkBlock : Bool) (matching : Prop) [Decidable matching]
    (s : Scanner) (lx : Lexer) (valid : Mask) : BranchRes :=
  if ¬matching ∧ s.indentation ≤ 3 ∧
     (valid .LIST_MARKER_MINUS ∨ valid .SETEXT_H2_UNDERLINE ∨
      valid .SETEXT_H2_UNDERLINE_OR_THEMATIC_BREAK ∨ valid .THEMATIC_BREAK) then
    let lx0 := if checkBlock then lx else lx.markEnd
    let r := minusLoop checkBlock lx0.rest 0 0 false false s.column lx0.consumed lx0.marked
    let lx1 : Lexer := ⟨r.rest, r.consumed, r.marked⟩
    let lineEnd : Bool := decide (lx1.lookahead = some '\n') || decide (lx1.lookahead = some '\r')
    let extra := if r.count = 1 ∧ lineEnd then 1 else r.extra
    let thematic : Bool := decide (3 ≤ r.count) && lineEnd
    let underline : Bool := decide (1 ≤ r.count) && !r.minusAfterWs && lineEnd
    let listMarker : Bool := decide (1 ≤ r.count) && decide (1 ≤ extra)
    if checkBlock then
      if thematic ∨ underline ∨ listMarker then
        .done ⟨true, none, { s with column := r.col }, lx1⟩
      else .fall { s with column := r.col } lx1
    else
      if valid .THEMATIC_BREAK ∧ thematic ∧ ¬underline then
        .done ⟨true, some .THEMATIC_BREAK,
          { s with indentation := 0, matched := (s.matched + 1) % 256, column := r.col },
          lx1.markEnd⟩
      else if valid .LIST_MARKER_MINUS ∧ listMarker then
        .done ⟨true, some .LIST_MARKER_MINUS, pushListItem s (extra - 1) r.col,
          if r.count = 1 then lx1.markEnd else lx1⟩
      else if valid .SETEXT_H2_UNDERLINE_OR_THEMATIC_BREAK ∧ thematic ∧ underline then
        .done ⟨true, some .SETEXT_H2_UNDERLINE_OR_THEMATIC_BREAK,
          { s with indentation := 0, matched := (s.matched + 1) % 256, column := r.col },
          lx1.markEnd⟩
      else if valid .SETEXT_H2_UNDERLINE ∧ underline then
        .done ⟨true, some .SETEXT_H2_UNDERLINE,
          { s with indentation := 0, matched := (s.matched + 1) % 256, column := r.col },
          lx1.markEnd⟩
      else .fall { s with column := r.col } lx1
  else .fall s lx

/-- Lines 655-716: the `*` dispatcher (thematic break / list marker star). -/
def branchStarOp (checkBlock : Bool) (matching : Prop) [Decidable matching]
    (s : Scanner) (lx : Lexer) (valid : Mask) : BranchRes :=
  if ¬matching ∧ s.indentation ≤ 3 ∧
     (valid .LIST_MARKER_STAR ∨ valid .THEMATIC_BREAK) then
    let lx0 := if checkBlock then lx else lx.markEnd
    let r := starLoop checkBlock lx0.rest 0 0 s.column lx0.consumed lx0.marked
    let lx1 : Lexer := ⟨r.rest, r.consumed, r.marked⟩
    let lineEnd : Bool := decide (lx1.lookahead = some '\n') || decide (lx1.lookahead = some '\r')
    let extra := if r.count = 1 ∧ lineEnd then 1 else r.extra
    let thematic : Bool := decide (3 ≤ r.count) && lineEnd
    let listMarker : Bool := decide (1 ≤ r.count) && decide (1 ≤ extra)
    if checkBlock then
      if thematic ∨ listMarker then
        .done ⟨true, none, { s with column := r.col }, lx1⟩
      else .fall { s with column := r.col } lx1
    else
      if valid .THEMATIC_BREAK ∧ thematic then
        .done ⟨true, some .THEMATIC_BREAK,
          { s with indentation := 0, matched := (s.matched + 1) % 256, column := r.col },
          lx1.markEnd⟩
      else if valid .LIST_MARKER_STAR ∧ listMarker then
        .done ⟨true, some .LIST_MARKER_STAR, pushListItem s (extra - 1) r.col,
          if r.count = 1 then lx1.markEnd else lx1⟩
      else .fall { s with column := r.col } lx1
  else .fall s lx

/-- Lines 717-742: the `_` thematic break. -/
def branchUnderscoreOp (checkBlock : Bool) (matching : Prop) [Decidable matching]
    (s : Scanner) (lx : Lexer) (valid : Mask) : BranchRes :=
  if ¬matching ∧ s.indentation ≤ 3 ∧ valid .THEMATIC_BREAK then
    let lx0 := if checkBlock then lx else lx.markEnd
    let r := underscoreLoop lx0.rest 0 s.column lx0.consumed
    let lx1 : Lexer := ⟨r.rest, r.consumed, lx0.marked⟩
    if 3 ≤ r.count ∧ (lx1.lookahead = some '\n' ∨ lx1.lookahead = some '\r') then
      .done (if checkBlock then ⟨true, none, { s with column := r.col }, lx1⟩
             else ⟨true, some .THEMATIC_BREAK,
                   { s with indentation := 0, matched := (s.matched + 1) % 256,
                            column := r.col }, lx1.markEnd⟩)
    else .fall { s with column := r.col } lx1
  else .fall s lx

/-- Is the lookahead an ASCII digit (the `'0'..'9'` switch cases)? -/
def isDigitLa (la : Option Char) : Prop :=
  match la with
  | some c => '0' ≤ c ∧ c ≤ '9'
  | none => False

instance (la : Option Char) : Decidable (isDigitLa la) := by
  unfold isDigitLa; cases la <;> infer_instance

/-- The `switch (lexer->lookahead)` of lines 363-743, preceded by the
indented chunk and list continuation tests of lines 329-362. -/
def scanSwitch (checkBlock : Bool) (matching : Prop) [Decidable matching]
    (s : Scanner) (lx : Lexer) (valid : Mask) : BranchRes :=
  match branchIndentedChunk checkBlock matching s lx valid with
  | .done out => .done out
  | .fall s1 lx1 =>
    match branchListCont matching s1 lx1 valid with
    | .done out => .done out
    | .fall s2 lx2 =>
      if lx2.lookahead = some '\n' ∨ lx2.lookahead = some '\r' then
        branchBlank checkBlock matching s2 lx2 valid
      else if lx2.lookahead = some '>' then branchQuote checkBlock matching s2 lx2 valid
      else if lx2.lookahead = some '~' then branchTilde checkBlock matching s2 lx2 valid
      else if lx2.lookahead = some '`' then branchBacktick checkBlock matching s2 lx2 valid
      else if lx2.lookahead = some '#' then branchAtx checkBlock matching s2 lx2 valid
      else if lx2.lookahead = some '=' then branchEq checkBlock matching s2 lx2 valid
      else if lx2.lookahead = some '+' then branchPlus checkBlock matching s2 lx2 valid
      else if isDigitLa lx2.lookahead then branchDigits checkBlock matching s2 lx2 valid
      else if lx2.lookahead = some '-' then branchMinus checkBlock matching s2 lx2 valid
      else if lx2.lookahead = some '*' then branchStarOp checkBlock matching s2 lx2 valid
      else if lx2.lookahead = some '_' then branchUnderscoreOp checkBlock matching s2 lx2 valid
      else .fall s2 lx2

/-- Lines 744-775: the fenced-code continuation fallthrough, the
matching unwind with the speculative lazy-continuation probe, and the
MATCHING_DONE fallthrough. -/
def scanTail (probe : Scanner → Lexer → Mask → ScanOut) (checkBlock : Bool)
    (matching : Prop) [Decidable matching]
    (s3 : Scanner) (lx3 : Lexer) (valid : Mask) : ScanOut :=
  if ¬checkBlock ∧ matching ∧ valid .BLOCK_CONTINUATION ∧
     (s3.open_blocks.getD s3.matched 0 = FENCED_CODE_BLOCK_TILDE ∨
      s3.open_blocks.getD s3.matched 0 = FENCED_CODE_BLOCK_BACKTICK) then
    ⟨true, some .BLOCK_CONTINUATION,
     { s3 with matched := (s3.matched + 2) % 256, indentation := 0 }, lx3⟩
  else if matching then
    let lx4 := lx3.markEnd
    if valid .LAZY_CONTINUATION then
      let pr := probe s3 lx4 valid
      if pr.ok = false then
        ⟨true, some .LAZY_CONTINUATION,
         { pr.s with indentation := 0,
                     matched := (pr.s.open_blocks.length + 1) % 256 }, pr.lx⟩
      else scanUnwind pr.s pr.lx
    else scanUnwind s3 lx4
  else if ¬checkBlock then
    ⟨true, some .MATCHING_DONE, { s3 with matched := (s3.matched + 1) % 256 }, lx3⟩
  else ⟨false, none, s3, lx3⟩

/-- The body of `Scanner::scan`, with the recursive lazy-continuation
probe abstracted as `probe`. -/
def scanBody (probe : Scanner → Lexer → Mask → ScanOut) (checkBlock : Bool)
    (s : Scanner) (lx : Lexer) (valid : Mask) : ScanOut :=
  if lx.eof then scanEof s lx
  else if s.open_blocks.length < s.matched then phaseD s lx valid
  else
    match branchIndentPre s lx valid with
    | some out => out
    | none =>
      match scanSwitch checkBlock (matchingProp checkBlock s) s lx valid with
      | .done out => out
      | .fall s3 lx3 => scanTail probe checkBlock (matchingProp checkBlock s) s3 lx3 valid

/-- `Scanner::scan` with a fuel bound on probe nesting.  The probe runs
with `check_block = true`, in which `matching` is false, so the probe
never probes again: fuel 1 is exact. -/
def scanCore : Nat → Bool → Scanner → Lexer → Mask → ScanOut
  | 0, checkBlock, s, lx, valid =>
    scanBody (fun s' lx' _ => ⟨false, none, s', lx'⟩) checkBlock s lx valid
  | fuel + 1, checkBlock, s, lx, valid =>
    scanBody (scanCore fuel true) checkBlock s lx valid

/-- `Scanner::scan` as called by the host
(`tree_sitter_markdown_external_scanner_scan`): `check_block = false`. -/
def scan (s : Scanner) (lx : Lexer) (valid : Mask) : ScanOut :=
  scanCore 1 false s lx valid

/-! ## Concrete masks and traces -/

/-- A mask with exactly the listed tokens valid. -/
def maskOf (l : List Tok) : Mask := fun t => decide (t ∈ l)

/-- Run a sequence of scan calls over one input, resuming each call at the
previous call's token end (`mark_end` position if set, else all consumed
bytes), as the host lexer does.  Returns the emitted symbols, the final
scanner and the remaining input. -/
def runTrace : Scanner → List Char → List Mask → List (Option Tok) × Scanner × List Char
  | s, input, [] => ([], s, input)
  | s, input, m :: ms =>
    let out := scan s ⟨input, 0, none⟩ m
    let r := runTrace out.s (input.drop ((out.lx.marked.getD out.lx.consumed))) ms
    (out.sym :: r.1, r.2.1, r.2.2)

/-- Run a sequence of scan calls, each with its own input and mask,
keeping only the scanner state. -/
def stepCalls : Scanner → List (List Char × Mask) → Scanner
  | s, [] => s
  | s, c :: cs => stepCalls (scan s ⟨c.1, 0, none⟩ c.2).s cs

/-- Claim C1 (code_bug evidence): on input `## x` with only the
`ATX_H1_MARKER` bit set, `scan` emits `ATX_H2_MARKER`, a token whose
mask bit is clear. -/
theorem scan_atx_emits_token_with_clear_bit :
    (scan freshScanner ⟨['#', '#', ' ', 'x'], 0, none⟩ (maskOf [.ATX_H1_MARKER])).ok = true ∧
    (scan freshScanner ⟨['#', '#', ' ', 'x'], 0, none⟩ (maskOf [.ATX_H1_MARKER])).sym =
      some .ATX_H2_MARKER ∧
    maskOf [.ATX_H1_MARKER] .ATX_H2_MARKER = false := by
  refine ⟨by decide, by decide, by decide⟩

/-- Claim C4 (code_bug evidence): in Phase D on input `\r` followed by
`a`, with `LineEnding` valid, `scan` emits `LineEnding` but consumes two
bytes (the extra `advance` at line 196 of scanner.cc eats the `a`),
although it does reset `matched`, `indentation` and `column`. -/
theorem scan_cr_consumes_extra_byte :
    (scan ⟨[], 1, 0, 0, 0, 0, 0, 0⟩ ⟨['\r', 'a'], 0, none⟩ (maskOf [.LINE_ENDING])).sym =
      some .LINE_ENDING ∧
    (scan ⟨[], 1, 0, 0, 0, 0, 0, 0⟩ ⟨['\r', 'a'], 0, none⟩ (maskOf [.LINE_ENDING])).lx.consumed = 2 ∧
    (scan ⟨[], 1, 0, 0, 0, 0, 0, 0⟩ ⟨['\r', 'a'], 0, none⟩ (maskOf [.LINE_ENDING])).lx.marked = none ∧
    (scan ⟨[], 1, 0, 0, 0, 0, 0, 0⟩ ⟨['\r', 'a'], 0, none⟩ (maskOf [.LINE_ENDING])).s.matched = 0 ∧
    (scan ⟨[], 1, 0, 0, 0, 0, 0, 0⟩ ⟨['\r', 'a'], 0, none⟩ (maskOf [.LINE_ENDING])).s.indentation = 0 ∧
    (scan ⟨[], 1, 0, 0, 0, 0, 0, 0⟩ ⟨['\r', 'a'], 0, none⟩ (maskOf [.LINE_ENDING])).s.column = 0 := by
  refine ⟨by decide, by decide, by decide, by decide, by decide, by decide⟩

/-- Claim C3 counterexample: the state with one open block quote and
`matched = 2` satisfies `matched ≤ len + 1`, but an EOF scan call pops the
block without touching `matched`, leaving `matched = 2 > 0 + 1`. -/
theorem scan_eof_pop_breaks_matched_bound :
    (Scanner.mk [BLOCK_QUOTE] 2 0 0 0 0 0 0).matched ≤
      (Scanner.mk [BLOCK_QUOTE] 2 0 0 0 0 0 0).open_blocks.length + 1 ∧
    (scan (Scanner.mk [BLOCK_QUOTE] 2 0 0 0 0 0 0) ⟨[], 0, none⟩ (maskOf [])).ok = true ∧
    ¬((scan (Scanner.mk [BLOCK_QUOTE] 2 0 0 0 0 0 0) ⟨[], 0, none⟩ (maskOf [])).s.matched ≤
      (scan (Scanner.mk [BLOCK_QUOTE] 2 0 0 0 0 0 0) ⟨[], 0, none⟩
        (maskOf [])).s.open_blocks.length + 1) := by
  refine ⟨by decide, by decide, by decide⟩

/-- Claim C5 counterexample: with `indentation = 4` and lookahead `>`,
the block quote opener still fires (the `>` branch has no
`indentation ≤ 3` guard). -/
theorem scan_block_quote_opens_at_indentation_four :
    4 ≤ (Scanner.mk [] 0 4 0 0 0 0 0).indentation ∧
    (scan (Scanner.mk [] 0 4 0 0 0 0 0) ⟨['>', 'x'], 0, none⟩
      (maskOf [.BLOCK_QUOTE_START])).sym = some .BLOCK_QUOTE_START ∧
    (scan (Scanner.mk [] 0 4 0 0 0 0 0) ⟨['>', 'x'], 0, none⟩
      (maskOf [.BLOCK_QUOTE_START])).s.open_blocks = [BLOCK_QUOTE] := by
  refine ⟨by decide, by decide, by decide⟩

/-- Claim C6 counterexample: with the top of stack a tilde fence of
length 3 and `indentation = 10 > 3`, the closing fence `~~~` still emits
`BlockClose` and pops (there is no `indentation ≤ 3` test at the close
site). -/
theorem scan_tilde_fence_closes_at_indentation_ten :
    ¬((Scanner.mk [FENCED_CODE_BLOCK_TILDE] 0 10 0 3 0 0 0).indentation ≤ 3) ∧
    (scan (Scanner.mk [FENCED_CODE_BLOCK_TILDE] 0 10 0 3 0 0 0)
      ⟨['~', '~', '~', '\n', 'x'], 0, none⟩ (maskOf [.BLOCK_CLOSE])).sym =
      some .BLOCK_CLOSE ∧
    (scan (Scanner.mk [FENCED_CODE_BLOCK_TILDE] 0 10 0 3 0 0 0)
      ⟨['~', '~', '~', '\n', 'x'], 0, none⟩ (maskOf [.BLOCK_CLOSE])).s.open_blocks = [] := by
  refine ⟨by decide, by decide, by decide⟩

/-- Claim C7 counterexample: on `12. x` (marker width `w = 3`, one
post-marker space) the claimed formula gives
`contentIndent = 0 + 3 + min 1 4 = 4`, but the code pushes tag byte
`TIGHT_LIST_ITEM + 0`, whose content indent is 2: the digit count never
enters the computation. -/
theorem scan_ordered_marker_ignores_width :
    (scan freshScanner ⟨['1', '2', '.', ' ', 'x'], 0, none⟩
      (maskOf [.LIST_MARKER_DOT])).sym = some .LIST_MARKER_DOT ∧
    (scan freshScanner ⟨['1', '2', '.', ' ', 'x'], 0, none⟩
      (maskOf [.LIST_MARKER_DOT])).s.open_blocks = [TIGHT_LIST_ITEM] ∧
    list_item_indentation TIGHT_LIST_ITEM = 2 ∧
    ¬(list_item_indentation TIGHT_LIST_ITEM = 0 + (2 + 1) + min 1 4) := by
  refine ⟨by decide, by decide, by decide, by decide⟩

/-- Claim C9 counterexample: a run of two `*` whose head call (mask:
only `EmphasisOpenStar`) chooses the open polarity still emits
`EmphasisCloseStar` on the second call when that call's mask has only
`EmphasisCloseStar`: the chosen polarity is not maintained. -/
theorem scan_emphasis_run_polarity_not_maintained :
    (runTrace ⟨[], 1, 0, 0, 0, 0, 0, 0⟩ ['*', '*', 'a']
      [maskOf [.EMPHASIS_OPEN_STAR], maskOf [.EMPHASIS_CLOSE_STAR]]).1 =
      [some .EMPHASIS_OPEN_STAR, some .EMPHASIS_CLOSE_STAR] := by
  decide

/-- Claim C10 counterexample: `deserialize` with `length = 3` computes a
wrapped block count `3 - 7 = 2^64 - 4`, reads far past the first 3 bytes,
and leaves a non-empty stack. -/
theorem deserialize_short_length_underflows :
    ¬(deserializeReadExtent 3 ≤ 3) ∧
    (deserialize [0, 0, 0] 3).open_blocks.length ≠ 0 := by
  constructor
  · decide
  · have h : (deserialize [0, 0, 0] 3).open_blocks.length = deserializeBlocksCount 3 := by
      simp [deserialize, List.length_map, List.length_range]
    rw [h]
    decide

/-! ## Serialization claims -/

theorem deserializeBlocksCount_of_le (m : Nat) (hm : m ≤ 248) :
    deserializeBlocksCount (7 + m) = m := by
  unfold deserializeBlocksCount
  omega

theorem getD_cons7 {α : Type} (a0 a1 a2 a3 a4 a5 a6 : α) (l : List α) (j : Nat) (d : α) :
    (a0 :: a1 :: a2 :: a3 :: a4 :: a5 :: a6 :: l).getD (7 + j) d = l.getD j d := by
  have h : 7 + j = j + 7 := by omega
  rw [h]
  rfl

/-- Claim C2: serialize followed by deserialize restores the state
exactly, except that only the outermost 248 stack entries survive; the
serialized length never exceeds 255. -/
theorem serialize_deserialize_roundtrip (s : Scanner)
    (h1 : s.matched < 256) (h2 : s.indentation < 256) (h3 : s.column < 256)
    (h4 : s.code_span_delimiter_length < 256) (h5 : s.num_emphasis_delimiters < 256)
    (h6 : s.num_emphasis_delimiters_left < 256) (h7 : s.emphasis_delimiters_is_open < 256)
    (h8 : ∀ b ∈ s.open_blocks, b < 256) :
    serializeLength s ≤ 255 ∧
    deserialize (serializeBytes s) (serializeLength s) =
      { s with open_blocks := s.open_blocks.take 248 } := by
  have hmin : min s.open_blocks.length 248 ≤ 248 := Nat.min_le_right _ _
  constructor
  · unfold serializeLength
    omega
  · have hlen : serializeLength s = 7 + min s.open_blocks.length 248 := rfl
    have hne : serializeLength s ≠ 0 := by rw [hlen]; omega
    have hmap : (s.open_blocks.take 248).map (· % 256) = s.open_blocks.take 248 := by
      have := List.map_congr_left (l := s.open_blocks.take 248)
        (f := fun b => b % 256) (g := id)
        (fun b hb => Nat.mod_eq_of_lt (h8 b (List.mem_of_mem_take hb)))
      rw [this, List.map_id]
    have hblocks :
        (List.range (deserializeBlocksCount (serializeLength s))).map
          (fun j => (serializeBytes s).getD (7 + j) 0) = s.open_blocks.take 248 := by
      rw [hlen, deserializeBlocksCount_of_le _ hmin]
      have hlen2 : (s.open_blocks.take 248).length = min s.open_blocks.length 248 := by
        simp [List.length_take, Nat.min_comm]
      apply List.ext_get
      · simp [hlen2]
      · intro n hn1 hn2
        simp only [List.get_eq_getElem, List.getElem_map, List.getElem_range]
        have hn : n < min s.open_blocks.length 248 := by simpa using hn1
        show (serializeBytes s).getD (7 + n) 0 = _
        unfold serializeBytes
        rw [show ([s.matched % 256, s.indentation % 256, s.column % 256,
          s.code_span_delimiter_length % 256, s.num_emphasis_delimiters % 256,
          s.num_emphasis_delimiters_left % 256, s.emphasis_delimiters_is_open % 256] ++
          (s.open_blocks.take 248).map (· % 256)) =
          (s.matched % 256 :: s.indentation % 256 :: s.column % 256 ::
          s.code_span_delimiter_length % 256 :: s.num_emphasis_delimiters % 256 ::
          s.num_emphasis_delimiters_left % 256 :: s.emphasis_delimiters_is_open % 256 ::
          (s.open_blocks.take 248).map (· % 256)) from rfl]
        rw [getD_cons7, hmap]
        have hn' : n < (s.open_blocks.take 248).length := by rw [hlen2]; exact hn
        rw [List.getD_eq_getElem?_getD, List.getElem?_eq_getElem hn', Option.getD_some]
    unfold deserialize
    rw [if_neg hne]
    cases s with
    | mk ob m i c csd nd ndl eo =>
      simp only [Scanner.mk.injEq]
      refine ⟨?_, ?_, ?_, ?_, ?_, ?_, ?_, ?_⟩
      · exact hblocks
      · show (serializeBytes _).getD 0 0 = m
        simp [serializeBytes]
        exact h1
      · show (serializeBytes _).getD 1 0 = i
        simp [serializeBytes]
        exact h2
      · show (serializeBytes _).getD 2 0 = c
        simp [serializeBytes]
        exact h3
      · show (serializeBytes _).getD 3 0 = csd
        simp [serializeBytes]
        exact h4
      · show (serializeBytes _).getD 4 0 = nd
        simp [serializeBytes]
        exact h5
      · show (serializeBytes _).getD 5 0 = ndl
        simp [serializeBytes]
        exact h6
      · show (serializeBytes _).getD 6 0 = eo
        simp [serializeBytes]
        exact h7

/-- A state with 250 open blocks, exercising the truncation. -/
def roundtripWitnessScanner : Scanner :=
  ⟨List.replicate 250 TIGHT_LIST_ITEM, 5, 1, 2, 3, 4, 5, 6⟩

/-- Witness for C2 at a concrete state whose stack has 250 entries. -/
theorem serialize_deserialize_roundtrip_witness :
    serializeLength roundtripWitnessScanner ≤ 255 ∧
    deserialize (serializeBytes roundtripWitnessScanner) (serializeLength roundtripWitnessScanner) =
      { roundtripWitnessScanner with
          open_blocks := roundtripWitnessScanner.open_blocks.take 248 } :=
  serialize_deserialize_roundtrip roundtripWitnessScanner
    (by decide) (by decide) (by decide) (by decide) (by decide) (by decide) (by decide)
    (by
      intro b hb
      simp only [roundtripWitnessScanner, List.mem_replicate, TIGHT_LIST_ITEM] at hb
      omega)

/-- Claim C10 (amended): for the lengths `deserialize` is actually fed
(0, or the 7-scalar header plus stack), it reads at most the first
`length` bytes and restores a stack of `length - 7` entries. -/
theorem deserialize_respects_length (buffer : List Nat) (length : Nat)
    (h32 : length < 2 ^ 32) (h : length = 0 ∨ 7 ≤ length) :
    deserializeReadExtent length ≤ length ∧
    (deserialize buffer length).open_blocks.length = length - 7 := by
  rcases h with h | h
  · subst h
    constructor
    · simp [deserializeReadExtent]
    · simp [deserialize, freshScanner]
  · have hbc : deserializeBlocksCount length = length - 7 := by
      unfold deserializeBlocksCount
      omega
    constructor
    · unfold deserializeReadExtent
      rw [if_neg (by omega)]
      omega
    · unfold deserialize
      rw [if_neg (by omega)]
      simp [List.length_map, List.length_range, hbc]

/-- Witness for the amended C10 at a concrete 9-byte buffer. -/
theorem deserialize_respects_length_witness :
    deserializeReadExtent 9 ≤ 9 ∧
    (deserialize [1, 2, 3, 4, 5, 6, 7, 16, 17] 9).open_blocks.length = 9 - 7 :=
  deserialize_respects_length [1, 2, 3, 4, 5, 6, 7, 16, 17] 9 (by norm_num) (Or.inr (by norm_num))

/-! ## Symbolic loop lemmas -/

theorem runWhile_replicate (p : Char → Bool) (ch : Char) (hch : p ch = true)
    (htab : ch ≠ '\t') (n : Nat) (c : Char) (tail : List Char) (hc : p c = false) :
    ∀ col consumed, col < 256 →
      runWhile p (List.replicate n ch ++ c :: tail) col consumed =
        ⟨n, n, (col + n) % 256, c :: tail, consumed + n⟩ := by
  induction n with
  | zero =>
    intro col consumed hcol
    simp [runWhile, hc, Nat.mod_eq_of_lt hcol]
  | succ n ih =>
    intro col consumed hcol
    rw [List.replicate_succ, List.cons_append]
    have hs : stepSize ch col = 1 := by simp [stepSize, htab]
    rw [runWhile]
    simp only [hch, if_true, hs]
    rw [ih ((col + 1) % 256) (consumed + 1) (Nat.mod_lt _ (by norm_num))]
    have hmod : ((col + 1) % 256 + n) % 256 = (col + (n + 1)) % 256 := by
      rw [Nat.mod_add_mod]
      congr 1
      omega
    congr 1 <;> simp <;> omega

theorem head?_replicate_append {α : Type} (n : Nat) (hn : 1 ≤ n) (ch : α) (rest : List α) :
    (List.replicate n ch ++ rest).head? = some ch := by
  cases n with
  | zero => omega
  | succ m => rw [List.replicate_succ, List.cons_append]; rfl

/-! ## Glue lemmas for symbolic scan evaluation -/

theorem scanBody_to_switch (probe : Scanner → Lexer → Mask → ScanOut) (cb : Bool)
    (s : Scanner) (lx : Lexer) (valid : Mask)
    (heof : ¬ lx.eof) (hph : ¬ (s.open_blocks.length < s.matched))
    (hpre : branchIndentPre s lx valid = none) :
    scanBody probe cb s lx valid =
      match scanSwitch cb (matchingProp cb s) s lx valid with
      | .done out => out
      | .fall s3 lx3 => scanTail probe cb (matchingProp cb s) s3 lx3 valid := by
  unfold scanBody
  rw [if_neg heof, if_neg hph, hpre]

theorem branchIndentPre_none_of_lookahead (s : Scanner) (lx : Lexer) (valid : Mask)
    (h : ¬ (lx.lookahead = some ' ' ∨ lx.lookahead = some '\t')) :
    branchIndentPre s lx valid = none := by
  unfold branchIndentPre
  rw [if_neg]
  rintro ⟨-, hw⟩
  exact h hw

theorem branchIndentedChunk_lowind (cb : Bool) (matching : Prop) [Decidable matching]
    (s : Scanner) (lx : Lexer) (valid : Mask) (h : s.indentation ≤ 3) :
    branchIndentedChunk cb matching s lx valid = .fall s lx := by
  unfold branchIndentedChunk
  by_cases h1 : (valid .INDENTED_CHUNK_START ∧ ¬matching) ∨
      (valid .BLOCK_CONTINUATION ∧ matching ∧
       s.open_blocks.getD s.matched 0 = INDENTED_CODE_BLOCK)
  · rw [if_pos h1, if_neg]
    rintro ⟨h4, -⟩
    omega
  · rw [if_neg h1]

theorem branchIndentedChunk_fall_matching (cb : Bool) (matching : Prop) [Decidable matching]
    (s : Scanner) (lx : Lexer) (valid : Mask) (hm : matching)
    (hblk : s.open_blocks.getD s.matched 0 ≠ INDENTED_CODE_BLOCK) :
    branchIndentedChunk cb matching s lx valid = .fall s lx := by
  unfold branchIndentedChunk
  rw [if_neg]
  rintro (⟨-, hn⟩ | ⟨-, -, h⟩)
  · exact hn hm
  · exact hblk h

theorem branchListCont_not_matching (matching : Prop) [Decidable matching]
    (s : Scanner) (lx : Lexer) (valid : Mask) (hm : ¬ matching) :
    branchListCont matching s lx valid = .fall s lx := by
  unfold branchListCont
  rw [if_neg]
  rintro ⟨-, hm2, -⟩
  exact hm hm2

theorem branchListCont_not_list (matching : Prop) [Decidable matching]
    (s : Scanner) (lx : Lexer) (valid : Mask)
    (h : ¬ is_list_item (s.open_blocks.getD s.matched 0)) :
    branchListCont matching s lx valid = .fall s lx := by
  unfold branchListCont
  rw [if_neg]
  rintro ⟨-, -, h2⟩
  exact h h2

/-- Evaluation of the ordered-marker branch on `d` digits, a dot, `sw`
spaces and then a non-whitespace byte. -/
theorem branchDigits_marker_eval
    (stk : List Nat) (ind col csd e1 e2 e3 d sw : Nat) (c : Char) (tail : List Char)
    (valid : Mask)
    (hind : ind ≤ 3) (hcol : col < 256)
    (hd1 : 1 ≤ d) (hd9 : d ≤ 9) (hsw : 1 ≤ sw)
    (hcsp : c ≠ ' ') (hctab : c ≠ '\t')
    (hdot : valid .LIST_MARKER_DOT = true) :
    branchDigits false (matchingProp false (Scanner.mk stk stk.length ind col csd e1 e2 e3))
      (Scanner.mk stk stk.length ind col csd e1 e2 e3)
      ⟨List.replicate d '7' ++ '.' :: (List.replicate sw ' ' ++ c :: tail), 0, none⟩ valid =
    .done ⟨true, some .LIST_MARKER_DOT,
      pushListItem (Scanner.mk stk stk.length ind col csd e1 e2 e3) (sw - 1)
        ((((col + d) % 256 + 1) % 256 + sw) % 256),
      ⟨c :: tail, d + 1 + sw, some (d + 1 + sw)⟩⟩ := by
  have hnm : ¬ matchingProp false (Scanner.mk stk stk.length ind col csd e1 e2 e3) := by
    simp [matchingProp]
  have hws : (fun ch => ch == ' ' || ch == '\t') c = false := by
    simp [hcsp, hctab]
  have hstep : ∀ x, stepSize '.' x = 1 := fun x => by
    rw [stepSize, if_neg (by decide)]
  unfold branchDigits
  rw [if_pos ⟨hnm, hind, Or.inr (Or.inr hdot)⟩]
  simp only [Bool.false_eq_true, if_false, Lexer.markEnd]
  rw [runWhile_replicate _ '7' (by decide) (by decide) d '.' _ (by decide) col 0 hcol]
  simp only [Lexer.lookahead, List.head?_cons, Option.some.injEq, advRes, lxAdv,
    List.tail_cons, List.isEmpty_cons, hstep, Nat.zero_add]
  rw [if_pos ⟨hd1, hd9⟩]
  rw [if_pos (Or.inl trivial)]
  simp only [if_true, Bool.false_eq_true, if_false]
  rw [runWhile_replicate _ ' ' (by decide) (by decide) sw c tail hws _ _
    (Nat.mod_lt _ (by norm_num))]
  rw [if_pos hsw]

/-- Claim C7 (amended): in Phase C an ordered marker of `d` digits
followed by `sw ≥ 1` whitespace columns pushes a Tight list item whose
content indent is `indentation + 1 + sw` when `sw ≤ 4` and
`indentation + 2` when `sw ≥ 5` (the surplus `sw - 1` becoming the new
`indentation`); the marker width `d + 1` never enters, and the tag stays
in the Tight range `2..8`. -/
theorem scan_list_marker_content_indent
    (stk : List Nat) (ind col csd e1 e2 e3 d sw : Nat) (c : Char) (tail : List Char)
    (valid : Mask) (out : ScanOut)
    (hind : ind ≤ 3) (hcol : col < 256)
    (hd1 : 1 ≤ d) (hd9 : d ≤ 9) (hsw : 1 ≤ sw)
    (hcsp : c ≠ ' ') (hctab : c ≠ '\t')
    (hdot : valid .LIST_MARKER_DOT = true)
    (hout : out = scan (Scanner.mk stk stk.length ind col csd e1 e2 e3)
      ⟨List.replicate d '7' ++ '.' :: (List.replicate sw ' ' ++ c :: tail), 0, none⟩ valid) :
    out.ok = true ∧
    out.sym = some .LIST_MARKER_DOT ∧
    out.s.open_blocks = stk ++ [TIGHT_LIST_ITEM + (if sw ≤ 4 then sw - 1 + ind else ind)] ∧
    out.s.indentation = (if sw ≤ 4 then 0 else (sw - 1) % 256) ∧
    out.s.matched = (stk.length + 1) % 256 ∧
    TIGHT_LIST_ITEM ≤ TIGHT_LIST_ITEM + (if sw ≤ 4 then sw - 1 + ind else ind) ∧
    TIGHT_LIST_ITEM + (if sw ≤ 4 then sw - 1 + ind else ind) ≤
      TIGHT_LIST_ITEM_MAX_INDENTATION ∧
    list_item_indentation (TIGHT_LIST_ITEM + (if sw ≤ 4 then sw - 1 + ind else ind)) =
      ind + 1 + (if sw ≤ 4 then sw else 1) := by
  have hhead : (⟨List.replicate d '7' ++ '.' :: (List.replicate sw ' ' ++ c :: tail), 0,
      none⟩ : Lexer).lookahead = some '7' :=
    head?_replicate_append d hd1 '7' _
  have heof : ¬ (⟨List.replicate d '7' ++ '.' :: (List.replicate sw ' ' ++ c :: tail), 0,
      none⟩ : Lexer).eof := by
    intro h
    rw [Lexer.eof] at h
    rcases List.append_eq_nil.mp h with ⟨-, h2⟩
    exact List.cons_ne_nil _ _ h2
  have hscan : scan (Scanner.mk stk stk.length ind col csd e1 e2 e3)
      ⟨List.replicate d '7' ++ '.' :: (List.replicate sw ' ' ++ c :: tail), 0, none⟩ valid =
      scanBody (scanCore 0 true) false (Scanner.mk stk stk.length ind col csd e1 e2 e3)
      ⟨List.replicate d '7' ++ '.' :: (List.replicate sw ' ' ++ c :: tail), 0, none⟩ valid := rfl
  rw [hscan, scanBody_to_switch _ _ _ _ _ heof (by simp)
    (branchIndentPre_none_of_lookahead _ _ _ (by rw [hhead]; decide))] at hout
  rw [scanSwitch] at hout
  rw [branchIndentedChunk_lowind _ _ _ _ _ hind] at hout
  simp only [] at hout
  rw [branchListCont_not_matching _ _ _ _ (by simp [matchingProp])] at hout
  simp only [] at hout
  rw [if_neg (by rw [hhead]; decide)] at hout
  rw [if_neg (by rw [hhead]; decide)] at hout
  rw [if_neg (by rw [hhead]; decide)] at hout
  rw [if_neg (by rw [hhead]; decide)] at hout
  rw [if_neg (by rw [hhead]; decide)] at hout
  rw [if_neg (by rw [hhead]; decide)] at hout
  rw [if_neg (by rw [hhead]; decide)] at hout
  rw [if_pos (show isDigitLa (Lexer.lookahead ⟨List.replicate d '7' ++ '.' ::
    (List.replicate sw ' ' ++ c :: tail), 0, none⟩) from by rw [hhead]; decide)] at hout
  rw [branchDigits_marker_eval stk ind col csd e1 e2 e3 d sw c tail valid
    hind hcol hd1 hd9 hsw hcsp hctab hdot] at hout
  simp only [] at hout
  subst hout
  refine ⟨rfl, rfl, ?_, ?_, ?_, ?_, ?_, ?_⟩
  · show (pushListItem _ (sw - 1) _).open_blocks = _
    rw [pushListItem]
    by_cases h4 : sw ≤ 4
    · rw [if_pos (show sw - 1 ≤ 3 by omega), if_pos h4]
    · rw [if_neg (show ¬ sw - 1 ≤ 3 by omega), if_neg h4]
  · show (pushListItem _ (sw - 1) _).indentation = _
    rw [pushListItem]
    by_cases h4 : sw ≤ 4
    · rw [if_pos (show sw - 1 ≤ 3 by omega), if_pos h4]
    · rw [if_neg (show ¬ sw - 1 ≤ 3 by omega), if_neg h4]
  · show (pushListItem _ (sw - 1) _).matched = _
    rw [pushListItem]
    by_cases h4 : sw ≤ 4
    · rw [if_pos (show sw - 1 ≤ 3 by omega)]
    · rw [if_neg (show ¬ sw - 1 ≤ 3 by omega)]
  · omega
  · rw [TIGHT_LIST_ITEM, TIGHT_LIST_ITEM_MAX_INDENTATION]
    by_cases h4 : sw ≤ 4
    · rw [if_pos h4]
      omega
    · rw [if_neg h4]
      omega
  · rw [list_item_indentation]
    by_cases h4 : sw ≤ 4
    · rw [if_pos h4, if_pos h4, if_pos (by rw [TIGHT_LIST_ITEM, TIGHT_LIST_ITEM_MAX_INDENTATION]; omega)]
      rw [TIGHT_LIST_ITEM]
      omega
    · rw [if_neg h4, if_neg h4, if_pos (by rw [TIGHT_LIST_ITEM, TIGHT_LIST_ITEM_MAX_INDENTATION]; omega)]
      rw [TIGHT_LIST_ITEM]
      omega

/-- Witness for the amended C7: `77.` followed by two spaces at
indentation 1, pushing a tight item with content indent 4 (`= 1 + 1 + 2`,
independent of the two marker digits). -/
theorem scan_list_marker_content_indent_witness :
    (scan (Scanner.mk [] 0 1 0 0 0 0 0)
      ⟨List.replicate 2 '7' ++ '.' :: (List.replicate 2 ' ' ++ 'x' :: []), 0, none⟩
      (maskOf [.LIST_MARKER_DOT])).sym = some .LIST_MARKER_DOT ∧
    (scan (Scanner.mk [] 0 1 0 0 0 0 0)
      ⟨List.replicate 2 '7' ++ '.' :: (List.replicate 2 ' ' ++ 'x' :: []), 0, none⟩
      (maskOf [.LIST_MARKER_DOT])).s.open_blocks =
      [TIGHT_LIST_ITEM + (if 2 ≤ 4 then 2 - 1 + 1 else 1)] ∧
    list_item_indentation (TIGHT_LIST_ITEM + (if 2 ≤ 4 then 2 - 1 + 1 else 1)) =
      1 + 1 + (if 2 ≤ 4 then 2 else 1) := by
  have h := scan_list_marker_content_indent [] 1 0 0 0 0 0 2 2 'x' [] (maskOf [.LIST_MARKER_DOT])
    (scan (Scanner.mk [] 0 1 0 0 0 0 0)
      ⟨List.replicate 2 '7' ++ '.' :: (List.replicate 2 ' ' ++ 'x' :: []), 0, none⟩
      (maskOf [.LIST_MARKER_DOT]))
    (by decide) (by decide) (by decide) (by decide) (by decide) (by decide) (by decide)
    (by decide) rfl
  rcases h with ⟨-, h2, h3, -, -, -, -, h8⟩
  exact ⟨h2, by simpa using h3, h8⟩

/-- Evaluation of the tilde branch while matching a tilde fence: closes
exactly when the run is long enough and a line end follows immediately. -/
theorem branchTilde_matching_eval
    (stk : List Nat) (m ind col csd e1 e2 e3 L : Nat) (c : Char) (tail : List Char)
    (valid : Mask)
    (hm : m < stk.length) (htop : stk.getD m 0 = FENCED_CODE_BLOCK_TILDE)
    (hclose : valid .BLOCK_CLOSE = true)
    (hL : 1 ≤ L) (hc : c ≠ '~') (hcol : col < 256) :
    branchTilde false (matchingProp false (Scanner.mk stk m ind col csd e1 e2 e3))
      (Scanner.mk stk m ind col csd e1 e2 e3)
      ⟨List.replicate L '~' ++ c :: tail, 0, none⟩ valid =
    (if csd ≤ L ∧ (c = '\n' ∨ c = '\r') then
      .done ⟨true, some .BLOCK_CLOSE,
        Scanner.mk stk.dropLast ((m + 1) % 256) 0 ((col + L) % 256) csd e1 e2 e3,
        ⟨c :: tail, L, some L⟩⟩
     else .fall (Scanner.mk stk m ind ((col + L) % 256) csd e1 e2 e3)
       ⟨c :: tail, L, some 0⟩) := by
  have hmatch : matchingProp false (Scanner.mk stk m ind col csd e1 e2 e3) := ⟨rfl, hm⟩
  have hct : ((fun x => x == '~') c) = false := by simp [hc]
  unfold branchTilde
  rw [if_pos (Or.inr ⟨hmatch, hclose, htop⟩)]
  simp only [Bool.false_eq_true, if_false, Lexer.markEnd]
  rw [runWhile_replicate _ '~' (by decide) (by decide) L c tail hct col 0 hcol]
  simp only [Nat.zero_add]
  rw [if_pos hmatch]
  by_cases hcond : csd ≤ L ∧ (c = '\n' ∨ c = '\r')
  · rw [if_pos hcond, if_pos (show csd ≤ L ∧
      ((⟨c :: tail, L, some 0⟩ : Lexer).lookahead = some '\n' ∨
       (⟨c :: tail, L, some 0⟩ : Lexer).lookahead = some '\r') from by
        refine ⟨hcond.1, ?_⟩
        rcases hcond.2 with h | h <;> subst h
        · exact Or.inl rfl
        · exact Or.inr rfl)]
    try rfl
  · rw [if_neg hcond, if_neg (show ¬(csd ≤ L ∧
      ((⟨c :: tail, L, some 0⟩ : Lexer).lookahead = some '\n' ∨
       (⟨c :: tail, L, some 0⟩ : Lexer).lookahead = some '\r')) from by
        rintro ⟨h1, h2⟩
        apply hcond
        refine ⟨h1, ?_⟩
        rcases h2 with h | h
        · exact Or.inl (by injection h)
        · exact Or.inr (by injection h))]

/-- Claim C6 (amended): while the block being matched is a tilde fence,
with BlockClose and BlockContinuation valid, a `~` run of length `L`
followed by byte `c` pops the last block and emits `BlockClose` exactly
when `L ≥ code_span_delimiter_length` and `c` is an immediate line end
(no trailing whitespace allowed, no indentation bound checked); otherwise
the fence continuation fires. -/
theorem scan_tilde_fence_close_characterization
    (stk : List Nat) (m ind col csd e1 e2 e3 L : Nat) (c : Char) (tail : List Char)
    (valid : Mask) (out : ScanOut)
    (hm : m < stk.length) (htop : stk.getD m 0 = FENCED_CODE_BLOCK_TILDE)
    (hclose : valid .BLOCK_CLOSE = true) (hcont : valid .BLOCK_CONTINUATION = true)
    (hL : 1 ≤ L) (hc : c ≠ '~') (hcol : col < 256)
    (hout : out = scan (Scanner.mk stk m ind col csd e1 e2 e3)
      ⟨List.replicate L '~' ++ c :: tail, 0, none⟩ valid) :
    (csd ≤ L ∧ (c = '\n' ∨ c = '\r') →
      out.sym = some .BLOCK_CLOSE ∧ out.s.open_blocks = stk.dropLast ∧
      out.s.indentation = 0 ∧ out.s.matched = (m + 1) % 256) ∧
    (¬(csd ≤ L ∧ (c = '\n' ∨ c = '\r')) →
      out.sym = some .BLOCK_CONTINUATION ∧ out.s.open_blocks = stk ∧
      out.s.matched = (m + 2) % 256) := by
  have hmatch : matchingProp false (Scanner.mk stk m ind col csd e1 e2 e3) := ⟨rfl, hm⟩
  have hhead : (⟨List.replicate L '~' ++ c :: tail, 0, none⟩ : Lexer).lookahead = some '~' :=
    head?_replicate_append L hL '~' _
  have heof : ¬ (⟨List.replicate L '~' ++ c :: tail, 0, none⟩ : Lexer).eof := by
    intro h
    rw [Lexer.eof] at h
    rcases List.append_eq_nil.mp h with ⟨-, h2⟩
    exact List.cons_ne_nil _ _ h2
  have hscan : scan (Scanner.mk stk m ind col csd e1 e2 e3)
      ⟨List.replicate L '~' ++ c :: tail, 0, none⟩ valid =
      scanBody (scanCore 0 true) false (Scanner.mk stk m ind col csd e1 e2 e3)
      ⟨List.replicate L '~' ++ c :: tail, 0, none⟩ valid := rfl
  rw [hscan, scanBody_to_switch _ _ _ _ _ heof (by simp; omega)
    (branchIndentPre_none_of_lookahead _ _ _ (by rw [hhead]; decide))] at hout
  rw [scanSwitch] at hout
  rw [branchIndentedChunk_fall_matching _ _ _ _ _ hmatch
    (by rw [htop]; decide)] at hout
  simp only [] at hout
  rw [branchListCont_not_list _ _ _ _ (by rw [htop]; decide)] at hout
  simp only [] at hout
  rw [if_neg (by rw [hhead]; decide)] at hout
  rw [if_neg (by rw [hhead]; decide)] at hout
  rw [if_pos (show Lexer.lookahead ⟨List.replicate L '~' ++ c :: tail, 0, none⟩ =
    some '~' from hhead)] at hout
  rw [branchTilde_matching_eval stk m ind col csd e1 e2 e3 L c tail valid
    hm htop hclose hL hc hcol] at hout
  by_cases hcond : csd ≤ L ∧ (c = '\n' ∨ c = '\r')
  · rw [if_pos hcond] at hout
    simp only [] at hout
    subst hout
    exact ⟨fun _ => ⟨rfl, rfl, rfl, rfl⟩, fun hn => absurd hcond hn⟩
  · rw [if_neg hcond] at hout
    simp only [] at hout
    rw [scanTail] at hout
    rw [if_pos ⟨by simp, hmatch, hcont, Or.inl htop⟩] at hout
    subst hout
    exact ⟨fun hp => absurd hp hcond, fun _ => ⟨rfl, rfl, rfl⟩⟩

/-- Witness for the amended C6: a 4-tilde close of a fence with stored
length 3, fired at indentation 10. -/
theorem scan_tilde_fence_close_characterization_witness :
    (3 ≤ 4 ∧ (('\n' : Char) = '\n' ∨ ('\n' : Char) = '\r')) ∧
    (scan (Scanner.mk [FENCED_CODE_BLOCK_TILDE] 0 10 0 3 0 0 0)
      ⟨List.replicate 4 '~' ++ '\n' :: ['x'], 0, none⟩
      (maskOf [.BLOCK_CLOSE, .BLOCK_CONTINUATION])).sym = some .BLOCK_CLOSE ∧
    (scan (Scanner.mk [FENCED_CODE_BLOCK_TILDE] 0 10 0 3 0 0 0)
      ⟨List.replicate 4 '~' ++ '\n' :: ['x'], 0, none⟩
      (maskOf [.BLOCK_CLOSE, .BLOCK_CONTINUATION])).s.open_blocks =
      [FENCED_CODE_BLOCK_TILDE].dropLast := by
  have h := scan_tilde_fence_close_characterization [FENCED_CODE_BLOCK_TILDE] 0 10 0 3 0 0 0
    4 '\n' ['x'] (maskOf [.BLOCK_CLOSE, .BLOCK_CONTINUATION])
    (scan (Scanner.mk [FENCED_CODE_BLOCK_TILDE] 0 10 0 3 0 0 0)
      ⟨List.replicate 4 '~' ++ '\n' :: ['x'], 0, none⟩
      (maskOf [.BLOCK_CLOSE, .BLOCK_CONTINUATION]))
    (by decide) (by decide) (by decide) (by decide) (by decide) (by decide) (by decide) rfl
  have h2 := h.1 ⟨by decide, Or.inl rfl⟩
  exact ⟨⟨by decide, Or.inl rfl⟩, h2.1, h2.2.1⟩

/-! ## Per-branch characterizations -/

theorem pushListItem_spec (s : Scanner) (e cv : Nat) :
    ∃ b, (pushListItem s e cv).open_blocks = s.open_blocks ++ [b] ∧
      (pushListItem s e cv).matched = (s.matched + 1) % 256 ∧
      TIGHT_LIST_ITEM ≤ b ∧
      (s.indentation ≤ 3 → b ≤ TIGHT_LIST_ITEM_MAX_INDENTATION) := by
  unfold pushListItem
  by_cases h : e ≤ 3
  · rw [if_pos h]
    refine ⟨_, rfl, rfl, by rw [TIGHT_LIST_ITEM]; omega, fun hi => ?_⟩
    rw [TIGHT_LIST_ITEM, TIGHT_LIST_ITEM_MAX_INDENTATION]
    omega
  · rw [if_neg h]
    refine ⟨_, rfl, rfl, by rw [TIGHT_LIST_ITEM]; omega, fun hi => ?_⟩
    rw [TIGHT_LIST_ITEM, TIGHT_LIST_ITEM_MAX_INDENTATION]
    omega

theorem atxToken_mem (lvl : Nat) :
    atxToken lvl = .ATX_H1_MARKER ∨ atxToken lvl = .ATX_H2_MARKER ∨
    atxToken lvl = .ATX_H3_MARKER ∨ atxToken lvl = .ATX_H4_MARKER ∨
    atxToken lvl = .ATX_H5_MARKER ∨ atxToken lvl = .ATX_H6_MARKER := by
  rcases lvl with _ | _ | _ | _ | _ | _ | n <;> simp [atxToken]

theorem branchIndentedChunk_fall_spec (cb : Bool) (matching : Prop) [Decidable matching]
    (s : Scanner) (lx : Lexer) (valid : Mask) (s' : Scanner) (lx' : Lexer)
    (h : branchIndentedChunk cb matching s lx valid = .fall s' lx') :
    s' = s ∧ lx' = lx := by
  unfold branchIndentedChunk at h
  split_ifs at h <;> simp only [BranchRes.fall.injEq] at h <;>
    exact ⟨h.1.symm, h.2.symm⟩

theorem branchListCont_fall_spec (matching : Prop) [Decidable matching]
    (s : Scanner) (lx : Lexer) (valid : Mask) (s' : Scanner) (lx' : Lexer)
    (h : branchListCont matching s lx valid = .fall s' lx') :
    s' = s ∧ lx' = lx := by
  unfold branchListCont at h
  split_ifs at h <;> simp only [BranchRes.fall.injEq] at h <;>
    first
    | exact ⟨h.1.symm, h.2.symm⟩
    | cases h

theorem branchBlank_fall_spec (cb : Bool) (matching : Prop) [Decidable matching]
    (s : Scanner) (lx : Lexer) (valid : Mask) (s' : Scanner) (lx' : Lexer)
    (h : branchBlank cb matching s lx valid = .fall s' lx') :
    s' = s ∧ lx' = lx := by
  unfold branchBlank at h
  split_ifs at h <;> simp only [BranchRes.fall.injEq] at h <;>
    first
    | exact ⟨h.1.symm, h.2.symm⟩
    | cases h

theorem branchQuote_fall_spec (cb : Bool) (matching : Prop) [Decidable matching]
    (s : Scanner) (lx : Lexer) (valid : Mask) (s' : Scanner) (lx' : Lexer)
    (h : branchQuote cb matching s lx valid = .fall s' lx') :
    s' = s ∧ lx' = lx := by
  unfold branchQuote at h
  split_ifs at h <;> simp only [BranchRes.fall.injEq] at h <;>
    first
    | exact ⟨h.1.symm, h.2.symm⟩
    | cases h

theorem branchTilde_fall_state (cb : Bool) (matching : Prop) [Decidable matching]
    (s : Scanner) (lx : Lexer) (valid : Mask) (s' : Scanner) (lx' : Lexer)
    (h : branchTilde cb matching s lx valid = .fall s' lx') :
    ∃ cv, s' = { s with column := cv } := by
  unfold branchTilde at h
  simp only [] at h
  split_ifs at h <;> simp only [BranchRes.fall.injEq] at h <;>
    obtain ⟨h1, h2⟩ := h <;> subst h1 <;> exact ⟨_, rfl⟩

theorem branchTilde_fall_lx (cb : Bool) (matching : Prop) [Decidable matching]
    (s : Scanner) (lx : Lexer) (valid : Mask) (s' : Scanner) (lx' : Lexer)
    (hm : matching)
    (h : branchTilde cb matching s lx valid = .fall s' lx') :
    lx' = lx ∨ s.open_blocks.getD s.matched 0 = FENCED_CODE_BLOCK_TILDE := by
  unfold branchTilde at h
  simp only [] at h
  split_ifs at h with h1 h2 h3 <;> simp only [BranchRes.fall.injEq] at h
  all_goals
    try ((rcases h1 with ⟨hnm, -⟩ | ⟨-, -, hg⟩) <;>
      first
        | exact absurd hm hnm
        | exact Or.inr hg)
  all_goals exact Or.inl h.2.symm

theorem branchBacktick_fall_state (cb : Bool) (matching : Prop) [Decidable matching]
    (s : Scanner) (lx : Lexer) (valid : Mask) (s' : Scanner) (lx' : Lexer)
    (h : branchBacktick cb matching s lx valid = .fall s' lx') :
    ∃ cv, s' = { s with column := cv } := by
  unfold branchBacktick at h
  simp only [] at h
  split_ifs at h <;> simp only [BranchRes.fall.injEq] at h <;>
    obtain ⟨h1, h2⟩ := h <;> subst h1 <;> exact ⟨_, rfl⟩

theorem branchBacktick_fall_lx (cb : Bool) (matching : Prop) [Decidable matching]
    (s : Scanner) (lx : Lexer) (valid : Mask) (s' : Scanner) (lx' : Lexer)
    (hm : matching)
    (h : branchBacktick cb matching s lx valid = .fall s' lx') :
    lx' = lx ∨ s.open_blocks.getD s.matched 0 = FENCED_CODE_BLOCK_BACKTICK := by
  unfold branchBacktick at h
  simp only [] at h
  split_ifs at h with h1 h2 h3 <;> simp only [BranchRes.fall.injEq] at h
  all_goals
    try ((rcases h1 with ⟨hnm, -⟩ | ⟨-, -, hg⟩) <;>
      first
        | exact absurd hm hnm
        | exact Or.inr hg)
  all_goals exact Or.inl h.2.symm

theorem branchAtx_fall_state (cb : Bool) (matching : Prop) [Decidable matching]
    (s : Scanner) (lx : Lexer) (valid : Mask) (s' : Scanner) (lx' : Lexer)
    (h : branchAtx cb matching s lx valid = .fall s' lx') :
    ∃ cv, s' = { s with column := cv } := by
  unfold branchAtx at h
  simp only [] at h
  split_ifs at h <;> simp only [BranchRes.fall.injEq] at h <;>
    obtain ⟨h1, h2⟩ := h <;> subst h1 <;> exact ⟨_, rfl⟩

theorem branchAtx_fall_lx (cb : Bool) (matching : Prop) [Decidable matching]
    (s : Scanner) (lx : Lexer) (valid : Mask) (s' : Scanner) (lx' : Lexer)
    (hm : matching)
    (h : branchAtx cb matching s lx valid = .fall s' lx') :
    s' = s ∧ lx' = lx := by
  unfold branchAtx at h
  simp only [] at h
  split_ifs at h with h1 <;> simp only [BranchRes.fall.injEq] at h
  all_goals try (exact absurd hm h1.2.2)
  all_goals exact ⟨h.1.symm, h.2.symm⟩

theorem branchEq_fall_lx (cb : Bool) (matching : Prop) [Decidable matching]
    (s : Scanner) (lx : Lexer) (valid : Mask) (s' : Scanner) (lx' : Lexer)
    (hm : matching)
    (h : branchEq cb matching s lx valid = .fall s' lx') :
    s' = s ∧ lx' = lx := by
  unfold branchEq at h
  simp only [] at h
  split_ifs at h with h1 <;> simp only [BranchRes.fall.injEq] at h
  all_goals try (exact absurd hm h1.2.2)
  all_goals exact ⟨h.1.symm, h.2.symm⟩

theorem branchEq_fall_state (cb : Bool) (matching : Prop) [Decidable matching]
    (s : Scanner) (lx : Lexer) (valid : Mask) (s' : Scanner) (lx' : Lexer)
    (h : branchEq cb matching s lx valid = .fall s' lx') :
    ∃ cv, s' = { s with column := cv } := by
  unfold branchEq at h
  simp only [] at h
  split_ifs at h <;> simp only [BranchRes.fall.injEq] at h <;>
    obtain ⟨h1, h2⟩ := h <;> subst h1 <;> exact ⟨_, rfl⟩

theorem branchPlus_fall_state (cb : Bool) (matching : Prop) [Decidable matching]
    (s : Scanner) (lx : Lexer) (valid : Mask) (s' : Scanner) (lx' : Lexer)
    (h : branchPlus cb matching s lx valid = .fall s' lx') :
    ∃ cv, s' = { s with column := cv } := by
  unfold branchPlus at h
  simp only [] at h
  split_ifs at h <;> simp only [BranchRes.fall.injEq] at h <;>
    obtain ⟨h1, h2⟩ := h <;> subst h1 <;> exact ⟨_, rfl⟩

theorem branchPlus_fall_lx (cb : Bool) (matching : Prop) [Decidable matching]
    (s : Scanner) (lx : Lexer) (valid : Mask) (s' : Scanner) (lx' : Lexer)
    (hm : matching)
    (h : branchPlus cb matching s lx valid = .fall s' lx') :
    s' = s ∧ lx' = lx := by
  unfold branchPlus at h
  simp only [] at h
  split_ifs at h with h1 <;> simp only [BranchRes.fall.injEq] at h
  all_goals try (exact absurd hm h1.1)
  all_goals exact ⟨h.1.symm, h.2.symm⟩

theorem branchDigits_fall_state (cb : Bool) (matching : Prop) [Decidable matching]
    (s : Scanner) (lx : Lexer) (valid : Mask) (s' : Scanner) (lx' : Lexer)
    (h : branchDigits cb matching s lx valid = .fall s' lx') :
    ∃ cv, s' = { s with column := cv } := by
  unfold branchDigits at h
  simp only [] at h
  split_ifs at h <;> simp only [BranchRes.fall.injEq] at h <;>
    obtain ⟨h1, h2⟩ := h <;> subst h1 <;> exact ⟨_, rfl⟩

theorem branchDigits_fall_lx (cb : Bool) (matching : Prop) [Decidable matching]
    (s : Scanner) (lx : Lexer) (valid : Mask) (s' : Scanner) (lx' : Lexer)
    (hm : matching)
    (h : branchDigits cb matching s lx valid = .fall s' lx') :
    s' = s ∧ lx' = lx := by
  unfold branchDigits at h
  simp only [] at h
  split_ifs at h with h1 <;> simp only [BranchRes.fall.injEq] at h
  all_goals try (exact absurd hm h1.1)
  all_goals exact ⟨h.1.symm, h.2.symm⟩

theorem branchMinus_fall_state (cb : Bool) (matching : Prop) [Decidable matching]
    (s : Scanner) (lx : Lexer) (valid : Mask) (s' : Scanner) (lx' : Lexer)
    (h : branchMinus cb matching s lx valid = .fall s' lx') :
    ∃ cv, s' = { s with column := cv } := by
  unfold branchMinus at h
  simp only [] at h
  split_ifs at h <;> simp only [BranchRes.fall.injEq] at h <;>
    obtain ⟨h1, h2⟩ := h <;> subst h1 <;> exact ⟨_, rfl⟩

theorem branchMinus_fall_lx (cb : Bool) (matching : Prop) [Decidable matching]
    (s : Scanner) (lx : Lexer) (valid : Mask) (s' : Scanner) (lx' : Lexer)
    (hm : matching)
    (h : branchMinus cb matching s lx valid = .fall s' lx') :
    s' = s ∧ lx' = lx := by
  unfold branchMinus at h
  simp only [] at h
  split_ifs at h with h1 <;> simp only [BranchRes.fall.injEq] at h
  all_goals try (exact absurd hm h1.1)
  all_goals exact ⟨h.1.symm, h.2.symm⟩

theorem branchStarOp_fall_state (cb : Bool) (matching : Prop) [Decidable matching]
    (s : Scanner) (lx : Lexer) (valid : Mask) (s' : Scanner) (lx' : Lexer)
    (h : branchStarOp cb matching s lx valid = .fall s' lx') :
    ∃ cv, s' = { s with column := cv } := by
  unfold branchStarOp at h
  simp only [] at h
  split_ifs at h <;> simp only [BranchRes.fall.injEq] at h <;>
    obtain ⟨h1, h2⟩ := h <;> subst h1 <;> exact ⟨_, rfl⟩

theorem branchStarOp_fall_lx (cb : Bool) (matching : Prop) [Decidable matching]
    (s : Scanner) (lx : Lexer) (valid : Mask) (s' : Scanner) (lx' : Lexer)
    (hm : matching)
    (h : branchStarOp cb matching s lx valid = .fall s' lx') :
    s' = s ∧ lx' = lx := by
  unfold branchStarOp at h
  simp only [] at h
  split_ifs at h with h1 <;> simp only [BranchRes.fall.injEq] at h
  all_goals try (exact absurd hm h1.1)
  all_goals exact ⟨h.1.symm, h.2.symm⟩

theorem branchUnderscoreOp_fall_state (cb : Bool) (matching : Prop) [Decidable matching]
    (s : Scanner) (lx : Lexer) (valid : Mask) (s' : Scanner) (lx' : Lexer)
    (h : branchUnderscoreOp cb matching s lx valid = .fall s' lx') :
    ∃ cv, s' = { s with column := cv } := by
  unfold branchUnderscoreOp at h
  simp only [] at h
  split_ifs at h <;> simp only [BranchRes.fall.injEq] at h <;>
    obtain ⟨h1, h2⟩ := h <;> subst h1 <;> exact ⟨_, rfl⟩

theorem branchUnderscoreOp_fall_lx (cb : Bool) (matching : Prop) [Decidable matching]
    (s : Scanner) (lx : Lexer) (valid : Mask) (s' : Scanner) (lx' : Lexer)
    (hm : matching)
    (h : branchUnderscoreOp cb matching s lx valid = .fall s' lx') :
    s' = s ∧ lx' = lx := by
  unfold branchUnderscoreOp at h
  simp only [] at h
  split_ifs at h with h1 <;> simp only [BranchRes.fall.injEq] at h
  all_goals try (exact absurd hm h1.1)
  all_goals exact ⟨h.1.symm, h.2.symm⟩

theorem branchIndentedChunk_done_spec (cb : Bool) (matching : Prop) [Decidable matching]
    (s : Scanner) (lx : Lexer) (valid : Mask) (out : ScanOut)
    (h : branchIndentedChunk cb matching s lx valid = .done out) :
    out = ⟨true, none, s, lx⟩ ∨
    (matching ∧ out = ⟨true, some .BLOCK_CONTINUATION,
      { s with indentation := s.indentation - 4, matched := (s.matched + 2) % 256 }, lx⟩) ∨
    (cb ≠ true ∧ ¬matching ∧ out = ⟨true, some .INDENTED_CHUNK_START,
      { s with open_blocks := s.open_blocks ++ [INDENTED_CODE_BLOCK],
               indentation := s.indentation - 4, matched := (s.matched + 2) % 256 }, lx⟩) := by
  unfold branchIndentedChunk at h
  split_ifs at h with h1 h2 h3 h4 h5 h6
  all_goals simp only [BranchRes.done.injEq] at h
  all_goals subst h
  all_goals try (exact Or.inl rfl)
  all_goals try (exact Or.inr (Or.inl ⟨by assumption, rfl⟩))
  all_goals exact Or.inr (Or.inr ⟨by assumption, by assumption, rfl⟩)

theorem branchListCont_done_spec (matching : Prop) [Decidable matching]
    (s : Scanner) (lx : Lexer) (valid : Mask) (out : ScanOut)
    (h : branchListCont matching s lx valid = .done out) :
    matching ∧ ∃ iv, out = ⟨true, some .BLOCK_CONTINUATION,
      { s with indentation := iv, matched := (s.matched + 1) % 256 }, lx⟩ := by
  unfold branchListCont at h
  split_ifs at h with h1 h2 h3
  all_goals simp only [BranchRes.done.injEq] at h
  all_goals subst h
  all_goals exact ⟨h1.2.1, _, rfl⟩

theorem branchBlank_done_spec (cb : Bool) (matching : Prop) [Decidable matching]
    (s : Scanner) (lx : Lexer) (valid : Mask) (out : ScanOut)
    (h : branchBlank cb matching s lx valid = .done out) :
    out = ⟨true, none, s, lx⟩ ∨
    (cb ≠ true ∧ ¬matching ∧ out = ⟨true, some .BLANK_LINE,
      { s with matched := (s.matched + 1) % 256,
               open_blocks := s.open_blocks.map loosen }, lx⟩) := by
  unfold branchBlank at h
  split_ifs at h with h1 h2
  all_goals simp only [BranchRes.done.injEq] at h
  all_goals subst h
  all_goals try (exact Or.inl rfl)
  all_goals exact Or.inr ⟨by assumption, h1.2, rfl⟩

theorem branchQuote_done_spec (cb : Bool) (matching : Prop) [Decidable matching]
    (s : Scanner) (lx : Lexer) (valid : Mask) (out : ScanOut)
    (h : branchQuote cb matching s lx valid = .done out) :
    out = ⟨true, none, s, lx⟩ ∨
    (cb ≠ true ∧ ∃ iv cv lx',
      (matching ∧ out = ⟨true, some .BLOCK_CONTINUATION,
        { s with indentation := iv, column := cv, matched := (s.matched + 1) % 256 }, lx'⟩) ∨
      (¬matching ∧ out = ⟨true, some .BLOCK_QUOTE_START,
        { s with indentation := iv, column := cv, matched := (s.matched + 1) % 256,
                 open_blocks := s.open_blocks ++ [BLOCK_QUOTE] }, lx'⟩)) := by
  unfold branchQuote at h
  split_ifs at h with h1 h2 h3 h4
  all_goals simp only [BranchRes.done.injEq] at h
  all_goals subst h
  all_goals try split_ifs
  all_goals try (exact Or.inl rfl)
  all_goals try (exact Or.inr ⟨by assumption, _, _, _, Or.inl ⟨by assumption, rfl⟩⟩)
  all_goals exact Or.inr ⟨by assumption, _, _, _, Or.inr ⟨by assumption, rfl⟩⟩

theorem branchTilde_done_spec (cb : Bool) (matching : Prop) [Decidable matching]
    (s : Scanner) (lx : Lexer) (valid : Mask) (out : ScanOut)
    (h : branchTilde cb matching s lx valid = .done out) :
    (∃ cv lx', out = ⟨true, none, { s with column := cv }, lx'⟩) ∨
    (matching ∧ s.open_blocks.getD s.matched 0 = FENCED_CODE_BLOCK_TILDE ∧
      ∃ cv lx', out = ⟨true, some .BLOCK_CLOSE,
        { s with open_blocks := s.open_blocks.dropLast, matched := (s.matched + 1) % 256,
                 indentation := 0, column := cv }, lx'⟩) ∨
    (cb ≠ true ∧ ¬matching ∧ ∃ dl cv lx', out = ⟨true, some .FENCED_CODE_BLOCK_START,
      { s with open_blocks := s.open_blocks ++ [FENCED_CODE_BLOCK_TILDE],
               code_span_delimiter_length := dl, matched := (s.matched + 2) % 256,
               indentation := 0, column := cv }, lx'⟩) := by
  unfold branchTilde at h
  simp only [] at h
  split_ifs at h with h1 h2 h3 h4 h5
  all_goals simp only [BranchRes.done.injEq] at h
  all_goals subst h
  all_goals try (exact Or.inl ⟨_, _, rfl⟩)
  all_goals try (exact Or.inr (Or.inr ⟨by assumption, by assumption, _, _, _, rfl⟩))
  all_goals
    rcases h1 with ⟨hnm, -⟩ | ⟨-, -, hg⟩
    · exact absurd (by assumption) hnm
    · exact Or.inr (Or.inl ⟨by assumption, hg, _, _, rfl⟩)

theorem branchBacktick_done_spec (cb : Bool) (matching : Prop) [Decidable matching]
    (s : Scanner) (lx : Lexer) (valid : Mask) (out : ScanOut)
    (h : branchBacktick cb matching s lx valid = .done out) :
    (∃ cv lx', out = ⟨true, none, { s with column := cv }, lx'⟩) ∨
    (matching ∧ s.open_blocks.getD s.matched 0 = FENCED_CODE_BLOCK_BACKTICK ∧
      ∃ cv lx', out = ⟨true, some .BLOCK_CLOSE,
        { s with open_blocks := s.open_blocks.dropLast, matched := (s.matched + 1) % 256,
                 indentation := 0, column := cv }, lx'⟩) ∨
    (cb ≠ true ∧ ¬matching ∧ ∃ dl cv lx', out = ⟨true, some .FENCED_CODE_BLOCK_START,
      { s with open_blocks := s.open_blocks ++ [FENCED_CODE_BLOCK_BACKTICK],
               code_span_delimiter_length := dl, matched := (s.matched + 2) % 256,
               indentation := 0, column := cv }, lx'⟩) := by
  unfold branchBacktick at h
  simp only [] at h
  split_ifs at h with h1 h2 h3 h4 h5
  all_goals simp only [BranchRes.done.injEq] at h
  all_goals subst h
  all_goals try (exact Or.inl ⟨_, _, rfl⟩)
  all_goals try (exact Or.inr (Or.inr ⟨by assumption, by assumption, _, _, _, rfl⟩))
  all_goals
    rcases h1 with ⟨hnm, -⟩ | ⟨-, -, hg⟩
    · exact absurd (by assumption) hnm
    · exact Or.inr (Or.inl ⟨by assumption, hg, _, _, rfl⟩)

theorem branchAtx_done_spec (cb : Bool) (matching : Prop) [Decidable matching]
    (s : Scanner) (lx : Lexer) (valid : Mask) (out : ScanOut)
    (h : branchAtx cb matching s lx valid = .done out) :
    (∃ cv lx', out = ⟨true, none, { s with column := cv }, lx'⟩) ∨
    (cb ≠ true ∧ ¬matching ∧ s.indentation ≤ 3 ∧ ∃ lvl cv lx',
      out = ⟨true, some (atxToken lvl),
        { s with matched := (s.matched + 1) % 256, indentation := 0, column := cv }, lx'⟩) := by
  unfold branchAtx at h
  simp only [] at h
  split_ifs at h with h1 h2 h3
  all_goals simp only [BranchRes.done.injEq] at h
  all_goals subst h
  all_goals try (exact Or.inl ⟨_, _, rfl⟩)
  all_goals exact Or.inr ⟨by assumption, h1.2.2, h1.2.1, _, _, _, rfl⟩

theorem branchEq_done_spec (cb : Bool) (matching : Prop) [Decidable matching]
    (s : Scanner) (lx : Lexer) (valid : Mask) (out : ScanOut)
    (h : branchEq cb matching s lx valid = .done out) :
    cb ≠ true ∧ ¬matching ∧ ∃ cv lx', out = ⟨true, some .SETEXT_H1_UNDERLINE,
      { s with matched := (s.matched + 1) % 256, column := cv }, lx'⟩ := by
  unfold branchEq at h
  simp only [] at h
  split_ifs at h with h1 h2
  all_goals simp only [BranchRes.done.injEq] at h
  all_goals subst h
  all_goals exact ⟨h1.1, h1.2.2, _, _, rfl⟩

theorem branchPlus_done_spec (cb : Bool) (matching : Prop) [Decidable matching]
    (s : Scanner) (lx : Lexer) (valid : Mask) (out : ScanOut)
    (h : branchPlus cb matching s lx valid = .done out) :
    (∃ cv lx', out = ⟨true, none, { s with column := cv }, lx'⟩) ∨
    (cb ≠ true ∧ ¬matching ∧ s.indentation ≤ 3 ∧ ∃ e cv lx',
      out = ⟨true, some .LIST_MARKER_PLUS, pushListItem s e cv, lx'⟩) := by
  unfold branchPlus at h
  simp only [] at h
  split_ifs at h with h1 h2 h3
  all_goals simp only [BranchRes.done.injEq] at h
  all_goals subst h
  all_goals try (exact Or.inl ⟨_, _, rfl⟩)
  all_goals exact Or.inr ⟨by assumption, h1.1, h1.2.1, _, _, _, rfl⟩

theorem branchDigits_done_spec (cb : Bool) (matching : Prop) [Decidable matching]
    (s : Scanner) (lx : Lexer) (valid : Mask) (out : ScanOut)
    (h : branchDigits cb matching s lx valid = .done out) :
    (∃ cv lx', out = ⟨true, none, { s with column := cv }, lx'⟩) ∨
    (cb ≠ true ∧ ¬matching ∧ s.indentation ≤ 3 ∧ ∃ sym',
      (sym' = Tok.LIST_MARKER_DOT ∨ sym' = Tok.LIST_MARKER_PARENTHETHIS) ∧
      ∃ e cv lx', out = ⟨true, some sym', pushListItem s e cv, lx'⟩) := by
  unfold branchDigits at h
  simp only [] at h
  split_ifs at h with h1 h2 h3 h4 h5
  all_goals simp only [BranchRes.done.injEq] at h
  all_goals subst h
  all_goals try (exact Or.inl ⟨_, _, rfl⟩)
  all_goals try (exact Or.inr ⟨by assumption, h1.1, h1.2.1, _, Or.inl rfl, _, _, _, rfl⟩)
  all_goals exact Or.inr ⟨by assumption, h1.1, h1.2.1, _, Or.inr rfl, _, _, _, rfl⟩

theorem branchMinus_done_spec (cb : Bool) (matching : Prop) [Decidable matching]
    (s : Scanner) (lx : Lexer) (valid : Mask) (out : ScanOut)
    (h : branchMinus cb matching s lx valid = .done out) :
    (∃ cv lx', out = ⟨true, none, { s with column := cv }, lx'⟩) ∨
    (cb ≠ true ∧ ¬matching ∧ s.indentation ≤ 3 ∧
      ((∃ cv lx', out = ⟨true, some .THEMATIC_BREAK,
          { s with indentation := 0, matched := (s.matched + 1) % 256, column := cv }, lx'⟩) ∨
       (∃ e cv lx', out = ⟨true, some .LIST_MARKER_MINUS, pushListItem s e cv, lx'⟩) ∨
       (∃ cv lx', out = ⟨true, some .SETEXT_H2_UNDERLINE_OR_THEMATIC_BREAK,
          { s with indentation := 0, matched := (s.matched + 1) % 256, column := cv }, lx'⟩) ∨
       (∃ cv lx', out = ⟨true, some .SETEXT_H2_UNDERLINE,
          { s with indentation := 0, matched := (s.matched + 1) % 256, column := cv }, lx'⟩))) := by
  unfold branchMinus at h
  simp only [] at h
  split_ifs at h with h1 h2 h3 h4 h5 h6 h7 h8
  all_goals simp only [BranchRes.done.injEq] at h
  all_goals subst h
  all_goals try (exact Or.inl ⟨_, _, rfl⟩)
  all_goals try (exact Or.inr ⟨by assumption, h1.1, h1.2.1, Or.inl ⟨_, _, rfl⟩⟩)
  all_goals try (exact Or.inr ⟨by assumption, h1.1, h1.2.1, Or.inr (Or.inl ⟨_, _, _, rfl⟩)⟩)
  all_goals try (exact Or.inr ⟨by assumption, h1.1, h1.2.1, Or.inr (Or.inr (Or.inl ⟨_, _, rfl⟩))⟩)
  all_goals exact Or.inr ⟨by assumption, h1.1, h1.2.1, Or.inr (Or.inr (Or.inr ⟨_, _, rfl⟩))⟩

theorem branchStarOp_done_spec (cb : Bool) (matching : Prop) [Decidable matching]
    (s : Scanner) (lx : Lexer) (valid : Mask) (out : ScanOut)
    (h : branchStarOp cb matching s lx valid = .done out) :
    (∃ cv lx', out = ⟨true, none, { s with column := cv }, lx'⟩) ∨
    (cb ≠ true ∧ ¬matching ∧ s.indentation ≤ 3 ∧
      ((∃ cv lx', out = ⟨true, some .THEMATIC_BREAK,
          { s with indentation := 0, matched := (s.matched + 1) % 256, column := cv }, lx'⟩) ∨
       (∃ e cv lx', out = ⟨true, some .LIST_MARKER_STAR, pushListItem s e cv, lx'⟩))) := by
  unfold branchStarOp at h
  simp only [] at h
  split_ifs at h with h1 h2 h3 h4 h5 h6
  all_goals simp only [BranchRes.done.injEq] at h
  all_goals subst h
  all_goals try (exact Or.inl ⟨_, _, rfl⟩)
  all_goals try (exact Or.inr ⟨by assumption, h1.1, h1.2.1, Or.inl ⟨_, _, rfl⟩⟩)
  all_goals exact Or.inr ⟨by assumption, h1.1, h1.2.1, Or.inr ⟨_, _, _, rfl⟩⟩

theorem branchUnderscoreOp_done_spec (cb : Bool) (matching : Prop) [Decidable matching]
    (s : Scanner) (lx : Lexer) (valid : Mask) (out : ScanOut)
    (h : branchUnderscoreOp cb matching s lx valid = .done out) :
    (∃ cv lx', out = ⟨true, none, { s with column := cv }, lx'⟩) ∨
    (cb ≠ true ∧ ¬matching ∧ s.indentation ≤ 3 ∧ ∃ cv lx',
      out = ⟨true, some .THEMATIC_BREAK,
        { s with indentation := 0, matched := (s.matched + 1) % 256, column := cv }, lx'⟩) := by
  unfold branchUnderscoreOp at h
  simp only [] at h
  split_ifs at h with h1 h2 h3
  all_goals simp only [BranchRes.done.injEq] at h
  all_goals subst h
  all_goals try (exact Or.inl ⟨_, _, rfl⟩)
  all_goals exact Or.inr ⟨by assumption, h1.1, h1.2.1, _, _, rfl⟩

theorem phaseDCr_spec (s : Scanner) (lx : Lexer) (valid : Mask) (out : ScanOut)
    (h : phaseDCr s lx valid = out) :
    out.s.open_blocks = s.open_blocks ∧
    (out.s.matched = s.matched ∨ out.s.matched = 0) ∧
    (out.sym = none ∨ out.sym = some .LINE_ENDING) := by
  unfold phaseDCr at h
  simp only [] at h
  split_ifs at h
  all_goals subst h
  all_goals exact ⟨rfl, by first | exact Or.inl rfl | exact Or.inr rfl, by simp⟩

theorem phaseDNl_spec (s : Scanner) (lx : Lexer) (valid : Mask) (out : ScanOut)
    (h : phaseDNl s lx valid = out) :
    out.s.open_blocks = s.open_blocks ∧
    (out.s.matched = s.matched ∨ out.s.matched = 0) ∧
    (out.sym = none ∨ out.sym = some .LINE_ENDING) := by
  unfold phaseDNl at h
  split_ifs at h
  all_goals subst h
  all_goals exact ⟨rfl, by first | exact Or.inl rfl | exact Or.inr rfl, by simp⟩

theorem phaseDBacktick_spec (s : Scanner) (lx : Lexer) (valid : Mask) (out : ScanOut)
    (h : phaseDBacktick s lx valid = out) :
    out.s.open_blocks = s.open_blocks ∧
    out.s.matched = s.matched ∧
    (out.sym = none ∨ out.sym = some .CODE_SPAN_START ∨ out.sym = some .CODE_SPAN_CLOSE) := by
  unfold phaseDBacktick at h
  simp only [] at h
  split_ifs at h
  all_goals subst h
  all_goals exact ⟨rfl, rfl, by simp⟩

theorem phaseDStar_spec (s : Scanner) (lx : Lexer) (valid : Mask) (out : ScanOut)
    (h : phaseDStar s lx valid = out) :
    out.s.open_blocks = s.open_blocks ∧
    out.s.matched = s.matched ∧
    (out.sym = none ∨ out.sym = some .EMPHASIS_OPEN_STAR ∨
     out.sym = some .EMPHASIS_CLOSE_STAR) := by
  unfold phaseDStar at h
  simp only [] at h
  split_ifs at h
  all_goals subst h
  all_goals exact ⟨rfl, rfl, by simp⟩

theorem phaseDUnderscore_spec (s : Scanner) (lx : Lexer) (valid : Mask) (out : ScanOut)
    (h : phaseDUnderscore s lx valid = out) :
    out.s.open_blocks = s.open_blocks ∧
    out.s.matched = s.matched ∧
    (out.sym = none ∨ out.sym = some .EMPHASIS_OPEN_UNDERSCORE ∨
     out.sym = some .EMPHASIS_CLOSE_UNDERSCORE) := by
  unfold phaseDUnderscore at h
  simp only [] at h
  split_ifs at h
  all_goals subst h
  all_goals exact ⟨rfl, rfl, by simp⟩

theorem phaseD_spec (s : Scanner) (lx : Lexer) (valid : Mask) (out : ScanOut)
    (h : phaseD s lx valid = out) :
    out.s.open_blocks = s.open_blocks ∧
    (out.s.matched = s.matched ∨ out.s.matched = 0) ∧
    (out.sym = none ∨
     out.sym = some .VIRTUAL_SPACE ∨
     out.sym = some .LINE_ENDING ∨
     out.sym = some .CODE_SPAN_START ∨
     out.sym = some .CODE_SPAN_CLOSE ∨
     out.sym = some .EMPHASIS_OPEN_STAR ∨
     out.sym = some .EMPHASIS_CLOSE_STAR ∨
     out.sym = some .EMPHASIS_OPEN_UNDERSCORE ∨
     out.sym = some .EMPHASIS_CLOSE_UNDERSCORE) := by
  unfold phaseD at h
  split_ifs at h
  · subst h
    exact ⟨rfl, Or.inl rfl, by simp⟩
  · obtain ⟨h1, h2, h3⟩ := phaseDCr_spec _ _ _ _ h
    refine ⟨h1, h2, ?_⟩
    rcases h3 with h3 | h3 <;> simp [h3]
  · obtain ⟨h1, h2, h3⟩ := phaseDNl_spec _ _ _ _ h
    refine ⟨h1, h2, ?_⟩
    rcases h3 with h3 | h3 <;> simp [h3]
  · obtain ⟨h1, h2, h3⟩ := phaseDBacktick_spec _ _ _ _ h
    refine ⟨h1, Or.inl h2, ?_⟩
    rcases h3 with h3 | h3 | h3 <;> simp [h3]
  · obtain ⟨h1, h2, h3⟩ := phaseDStar_spec _ _ _ _ h
    refine ⟨h1, Or.inl h2, ?_⟩
    rcases h3 with h3 | h3 | h3 <;> simp [h3]
  · obtain ⟨h1, h2, h3⟩ := phaseDUnderscore_spec _ _ _ _ h
    refine ⟨h1, Or.inl h2, ?_⟩
    rcases h3 with h3 | h3 | h3 <;> simp [h3]
  · subst h
    exact ⟨rfl, Or.inl rfl, by simp⟩

theorem branchIndentPre_some_spec (s : Scanner) (lx : Lexer) (valid : Mask) (out : ScanOut)
    (h : branchIndentPre s lx valid = some out) :
    ∃ iv cv lx', out = ⟨true, some .INDENTATION,
      { s with indentation := iv, column := cv }, lx'⟩ := by
  unfold branchIndentPre at h
  split_ifs at h
  · simp only [Option.some.injEq] at h
    exact ⟨_, _, _, h.symm⟩

/-- "This branch result preserves `matched` and the block stack": the
shape every probe-mode (`check_block = true`) branch outcome has. -/
def preservesMB (s : Scanner) : BranchRes → Prop
  | .done out => out.s.matched = s.matched ∧ out.s.open_blocks = s.open_blocks
  | .fall s' _ => s'.matched = s.matched ∧ s'.open_blocks = s.open_blocks

set_option maxHeartbeats 2000000 in
theorem scanSwitch_probe_spec (s : Scanner) (lx : Lexer) (valid : Mask) :
    preservesMB s (scanSwitch true (matchingProp true s) s lx valid) := by
  have hmF : ¬ matchingProp true s := by simp [matchingProp]
  unfold scanSwitch
  rcases hic : branchIndentedChunk true (matchingProp true s) s lx valid with out | ⟨s1, lx1⟩
  · rcases branchIndentedChunk_done_spec _ _ _ _ _ _ hic with h | ⟨hm2, -⟩ | ⟨hcb, -⟩
    · subst h
      exact ⟨rfl, rfl⟩
    · exact absurd hm2 hmF
    · exact absurd rfl hcb
  · obtain ⟨h1, h2⟩ := branchIndentedChunk_fall_spec _ _ _ _ _ _ _ hic
    rw [h1, h2]
    simp only []
    rcases hlc : branchListCont (matchingProp true s) s lx valid with out | ⟨s2, lx2⟩
    · rcases branchListCont_done_spec _ _ _ _ _ hlc with ⟨hm2, -⟩
      exact absurd hm2 hmF
    · obtain ⟨h3, h4⟩ := branchListCont_fall_spec _ _ _ _ _ _ hlc
      rw [h3, h4]
      simp only []
      split_ifs
      case _ =>
        rcases hb : branchBlank true (matchingProp true s) s lx valid with out | ⟨s', lx'⟩
        · rcases branchBlank_done_spec _ _ _ _ _ _ hb with h | ⟨hcb, -⟩
          · subst h
            exact ⟨rfl, rfl⟩
          · exact absurd rfl hcb
        · obtain ⟨h5, h6⟩ := branchBlank_fall_spec _ _ _ _ _ _ _ hb
          exact ⟨by rw [h5], by rw [h5]⟩
      case _ =>
        rcases hb : branchQuote true (matchingProp true s) s lx valid with out | ⟨s', lx'⟩
        · rcases branchQuote_done_spec _ _ _ _ _ _ hb with h | ⟨hcb, -⟩
          · subst h
            exact ⟨rfl, rfl⟩
          · exact absurd rfl hcb
        · obtain ⟨h5, h6⟩ := branchQuote_fall_spec _ _ _ _ _ _ _ hb
          exact ⟨by rw [h5], by rw [h5]⟩
      case _ =>
        rcases hb : branchTilde true (matchingProp true s) s lx valid with out | ⟨s', lx'⟩
        · rcases branchTilde_done_spec _ _ _ _ _ _ hb with ⟨cv, lxv, h⟩ | ⟨hm2, -⟩ | ⟨hcb, -⟩
          · subst h
            exact ⟨rfl, rfl⟩
          · exact absurd hm2 hmF
          · exact absurd rfl hcb
        · obtain ⟨cv, h5⟩ := branchTilde_fall_state _ _ _ _ _ _ _ hb
          subst h5
          exact ⟨rfl, rfl⟩
      case _ =>
        rcases hb : branchBacktick true (matchingProp true s) s lx valid with out | ⟨s', lx'⟩
        · rcases branchBacktick_done_spec _ _ _ _ _ _ hb with ⟨cv, lxv, h⟩ | ⟨hm2, -⟩ | ⟨hcb, -⟩
          · subst h
            exact ⟨rfl, rfl⟩
          · exact absurd hm2 hmF
          · exact absurd rfl hcb
        · obtain ⟨cv, h5⟩ := branchBacktick_fall_state _ _ _ _ _ _ _ hb
          subst h5
          exact ⟨rfl, rfl⟩
      case _ =>
        rcases hb : branchAtx true (matchingProp true s) s lx valid with out | ⟨s', lx'⟩
        · rcases branchAtx_done_spec _ _ _ _ _ _ hb with ⟨cv, lxv, h⟩ | ⟨hcb, -⟩
          · subst h
            exact ⟨rfl, rfl⟩
          · exact absurd rfl hcb
        · obtain ⟨cv, h5⟩ := branchAtx_fall_state _ _ _ _ _ _ _ hb
          subst h5
          exact ⟨rfl, rfl⟩
      case _ =>
        rcases hb : branchEq true (matchingProp true s) s lx valid with out | ⟨s', lx'⟩
        · rcases branchEq_done_spec _ _ _ _ _ _ hb with ⟨hcb, -⟩
          exact absurd rfl hcb
        · obtain ⟨cv, h5⟩ := branchEq_fall_state _ _ _ _ _ _ _ hb
          subst h5
          exact ⟨rfl, rfl⟩
      case _ =>
        rcases hb : branchPlus true (matchingProp true s) s lx valid with out | ⟨s', lx'⟩
        · rcases branchPlus_done_spec _ _ _ _ _ _ hb with ⟨cv, lxv, h⟩ | ⟨hcb, -⟩
          · subst h
            exact ⟨rfl, rfl⟩
          · exact absurd rfl hcb
        · obtain ⟨cv, h5⟩ := branchPlus_fall_state _ _ _ _ _ _ _ hb
          subst h5
          exact ⟨rfl, rfl⟩
      case _ =>
        rcases hb : branchDigits true (matchingProp true s) s lx valid with out | ⟨s', lx'⟩
        · rcases branchDigits_done_spec _ _ _ _ _ _ hb with ⟨cv, lxv, h⟩ | ⟨hcb, -⟩
          · subst h
            exact ⟨rfl, rfl⟩
          · exact absurd rfl hcb
        · obtain ⟨cv, h5⟩ := branchDigits_fall_state _ _ _ _ _ _ _ hb
          subst h5
          exact ⟨rfl, rfl⟩
      case _ =>
        rcases hb : branchMinus true (matchingProp true s) s lx valid with out | ⟨s', lx'⟩
        · rcases branchMinus_done_spec _ _ _ _ _ _ hb with ⟨cv, lxv, h⟩ | ⟨hcb, -⟩
          · subst h
            exact ⟨rfl, rfl⟩
          · exact absurd rfl hcb
        · obtain ⟨cv, h5⟩ := branchMinus_fall_state _ _ _ _ _ _ _ hb
          subst h5
          exact ⟨rfl, rfl⟩
      case _ =>
        rcases hb : branchStarOp true (matchingProp true s) s lx valid with out | ⟨s', lx'⟩
        · rcases branchStarOp_done_spec _ _ _ _ _ _ hb with ⟨cv, lxv, h⟩ | ⟨hcb, -⟩
          · subst h
            exact ⟨rfl, rfl⟩
          · exact absurd rfl hcb
        · obtain ⟨cv, h5⟩ := branchStarOp_fall_state _ _ _ _ _ _ _ hb
          subst h5
          exact ⟨rfl, rfl⟩
      case _ =>
        rcases hb : branchUnderscoreOp true (matchingProp true s) s lx valid with out | ⟨s', lx'⟩
        · rcases branchUnderscoreOp_done_spec _ _ _ _ _ _ hb with ⟨cv, lxv, h⟩ | ⟨hcb, -⟩
          · subst h
            exact ⟨rfl, rfl⟩
          · exact absurd rfl hcb
        · obtain ⟨cv, h5⟩ := branchUnderscoreOp_fall_state _ _ _ _ _ _ _ hb
          subst h5
          exact ⟨rfl, rfl⟩
      case _ =>
        exact ⟨rfl, rfl⟩

theorem closeSymFor_cases (b : Nat) :
    closeSymFor b = .BLOCK_CLOSE ∨ closeSymFor b = .BLOCK_CLOSE_LOOSE := by
  unfold closeSymFor
  split_ifs
  · exact Or.inr rfl
  · exact Or.inl rfl

theorem markEnd_eof (lx : Lexer) : lx.markEnd.eof ↔ lx.eof := by
  simp [Lexer.markEnd, Lexer.eof]

/-- The speculative probe (a scan call with `check_block = true`, made
while matching) does not change `matched`, and touches the stack only by
popping the top block at EOF. -/
theorem probe_state (s : Scanner) (lx : Lexer) (valid : Mask)
    (hm : s.matched < s.open_blocks.length) :
    (scanCore 0 true s lx valid).s.matched = s.matched ∧
    ((scanCore 0 true s lx valid).s.open_blocks = s.open_blocks ∨
     (lx.eof ∧ (scanCore 0 true s lx valid).s.open_blocks = s.open_blocks.dropLast ∧
      (scanCore 0 true s lx valid).ok = true)) := by
  have hcore : scanCore 0 true s lx valid =
      scanBody (fun s' lx' _ => ⟨false, none, s', lx'⟩) true s lx valid := rfl
  rw [hcore]
  unfold scanBody
  by_cases heof : lx.eof
  · rw [if_pos heof]
    unfold scanEof
    rw [if_pos (by omega)]
    exact ⟨rfl, Or.inr ⟨heof, rfl, rfl⟩⟩
  · rw [if_neg heof, if_neg (by omega)]
    rcases hp : branchIndentPre s lx valid with - | out
    · simp only []
      have hps := scanSwitch_probe_spec s lx valid
      rcases hsw : scanSwitch true (matchingProp true s) s lx valid with out | ⟨s3, lx3⟩
      · rw [hsw] at hps
        obtain ⟨h1, h2⟩ := hps
        simp only []
        exact ⟨h1, Or.inl h2⟩
      · rw [hsw] at hps
        obtain ⟨h1, h2⟩ := hps
        simp only []
        unfold scanTail
        rw [if_neg (by rintro ⟨hcb, -⟩; exact hcb rfl)]
        rw [if_neg (by simp [matchingProp])]
        rw [if_neg (by simp)]
        exact ⟨h1, Or.inl h2⟩
    · obtain ⟨iv, cv, lx', hout⟩ := branchIndentPre_some_spec _ _ _ _ hp
      subst hout
      exact ⟨rfl, Or.inl rfl⟩

/-- Outcome shapes of the fall-through tail (lines 744-774) in an
emitting call (`check_block = false`), with the probe fully resolved. -/
theorem scanTail_emit_spec (M : Prop) [Decidable M] (s3 : Scanner) (lx3 : Lexer)
    (valid : Mask) (out : ScanOut)
    (hM : M → s3.matched < s3.open_blocks.length)
    (h : scanTail (scanCore 0 true) false M s3 lx3 valid = out) :
    (M ∧ out.sym = some .BLOCK_CONTINUATION ∧
       out.s.open_blocks = s3.open_blocks ∧ out.s.matched = (s3.matched + 2) % 256) ∨
    (M ∧ out.sym = some .LAZY_CONTINUATION ∧
       out.s.open_blocks = s3.open_blocks ∧
       out.s.matched = (out.s.open_blocks.length + 1) % 256) ∨
    (M ∧ ∃ B, (B = s3.open_blocks ∨ (lx3.eof ∧ B = s3.open_blocks.dropLast)) ∧
       out.sym = some (closeSymFor (B.getD (B.length - 1) 0)) ∧
       out.s.open_blocks = B.dropLast ∧ out.s.matched = s3.matched) ∨
    (¬M ∧ out.sym = some .MATCHING_DONE ∧
       out.s.open_blocks = s3.open_blocks ∧ out.s.matched = (s3.matched + 1) % 256) := by
  unfold scanTail scanUnwind at h
  by_cases hA : M ∧ valid .BLOCK_CONTINUATION = true ∧
      (s3.open_blocks.getD s3.matched 0 = FENCED_CODE_BLOCK_TILDE ∨
       s3.open_blocks.getD s3.matched 0 = FENCED_CODE_BLOCK_BACKTICK)
  · rw [if_pos ⟨by simp, hA.1, hA.2.1, hA.2.2⟩] at h
    subst h
    exact Or.inl ⟨hA.1, rfl, rfl, rfl⟩
  · rw [if_neg (by rintro ⟨-, hm, hv, hg⟩; exact hA ⟨hm, hv, hg⟩)] at h
    by_cases hm : M
    · rw [if_pos hm] at h
      simp only [] at h
      obtain ⟨hpm, hpb⟩ := probe_state s3 lx3.markEnd valid (hM hm)
      by_cases hl : valid .LAZY_CONTINUATION = true
      · rw [if_pos hl] at h
        by_cases hok : (scanCore 0 true s3 lx3.markEnd valid).ok = false
        · rw [if_pos hok] at h
          subst h
          refine Or.inr (Or.inl ⟨hm, rfl, ?_, rfl⟩)
          rcases hpb with hpb | ⟨-, -, hoktrue⟩
          · exact hpb
          · rw [hok] at hoktrue
            simp at hoktrue
        · rw [if_neg hok] at h
          subst h
          refine Or.inr (Or.inr (Or.inl ⟨hm,
            (scanCore 0 true s3 lx3.markEnd valid).s.open_blocks, ?_, rfl, rfl, hpm⟩))
          rcases hpb with hpb | ⟨he, hpb, -⟩
          · exact Or.inl hpb
          · exact Or.inr ⟨(markEnd_eof lx3).mp he, hpb⟩
      · rw [if_neg hl] at h
        subst h
        exact Or.inr (Or.inr (Or.inl ⟨hm, s3.open_blocks, Or.inl rfl, rfl, rfl, rfl⟩))
    · rw [if_neg hm, if_pos (by simp)] at h
      subst h
      exact Or.inr (Or.inr (Or.inr ⟨hm, rfl, rfl, rfl⟩))

/-- Outcome shapes of the early-return (`.done`) paths of the branch
switch in an emitting call, relative to the entry state `s` and the
`matching` flag `M`. -/
def EmitDone (M : Prop) (s : Scanner) (out : ScanOut) : Prop :=
  (out.sym = none ∧ out.s.matched = s.matched ∧ out.s.open_blocks = s.open_blocks) ∨
  (out.sym = some .BLOCK_CONTINUATION ∧ M ∧ out.s.open_blocks = s.open_blocks ∧
     (out.s.matched = (s.matched + 1) % 256 ∨ out.s.matched = (s.matched + 2) % 256)) ∨
  (out.sym = some .INDENTED_CHUNK_START ∧ ¬M ∧
     out.s.open_blocks = s.open_blocks ++ [INDENTED_CODE_BLOCK] ∧
     out.s.matched = (s.matched + 2) % 256) ∨
  (out.sym = some .BLANK_LINE ∧ ¬M ∧
     out.s.open_blocks = s.open_blocks.map loosen ∧
     out.s.matched = (s.matched + 1) % 256) ∨
  (out.sym = some .BLOCK_QUOTE_START ∧ ¬M ∧
     out.s.open_blocks = s.open_blocks ++ [BLOCK_QUOTE] ∧
     out.s.matched = (s.matched + 1) % 256) ∨
  (out.sym = some .BLOCK_CLOSE ∧ M ∧
     (s.open_blocks.getD s.matched 0 = FENCED_CODE_BLOCK_TILDE ∨
      s.open_blocks.getD s.matched 0 = FENCED_CODE_BLOCK_BACKTICK) ∧
     out.s.open_blocks = s.open_blocks.dropLast ∧
     out.s.matched = (s.matched + 1) % 256) ∨
  (out.sym = some .FENCED_CODE_BLOCK_START ∧ ¬M ∧
     (out.s.open_blocks = s.open_blocks ++ [FENCED_CODE_BLOCK_TILDE] ∨
      out.s.open_blocks = s.open_blocks ++ [FENCED_CODE_BLOCK_BACKTICK]) ∧
     out.s.matched = (s.matched + 2) % 256) ∨
  ((∃ lvl, out.sym = some (atxToken lvl)) ∧ ¬M ∧ s.indentation ≤ 3 ∧
     out.s.open_blocks = s.open_blocks ∧ out.s.matched = (s.matched + 1) % 256) ∨
  (out.sym = some .SETEXT_H1_UNDERLINE ∧ ¬M ∧
     out.s.open_blocks = s.open_blocks ∧ out.s.matched = (s.matched + 1) % 256) ∨
  ((out.sym = some .LIST_MARKER_PLUS ∨ out.sym = some .LIST_MARKER_DOT ∨
    out.sym = some .LIST_MARKER_PARENTHETHIS ∨ out.sym = some .LIST_MARKER_MINUS ∨
    out.sym = some .LIST_MARKER_STAR) ∧ ¬M ∧ s.indentation ≤ 3 ∧
     (∃ b, out.s.open_blocks = s.open_blocks ++ [b] ∧ TIGHT_LIST_ITEM ≤ b ∧
       b ≤ TIGHT_LIST_ITEM_MAX_INDENTATION) ∧
     out.s.matched = (s.matched + 1) % 256) ∨
  ((out.sym = some .THEMATIC_BREAK ∨ out.sym = some .SETEXT_H2_UNDERLINE_OR_THEMATIC_BREAK ∨
    out.sym = some .SETEXT_H2_UNDERLINE) ∧ ¬M ∧ s.indentation ≤ 3 ∧
     out.s.open_blocks = s.open_blocks ∧ out.s.matched = (s.matched + 1) % 256)

theorem emitDone_none {M : Prop} {s : Scanner} {out : ScanOut}
    (h1 : out.sym = none) (h2 : out.s.matched = s.matched)
    (h3 : out.s.open_blocks = s.open_blocks) : EmitDone M s out :=
  Or.inl ⟨h1, h2, h3⟩

theorem emitDone_cont {M : Prop} {s : Scanner} {out : ScanOut}
    (h1 : out.sym = some .BLOCK_CONTINUATION) (h2 : M)
    (h3 : out.s.open_blocks = s.open_blocks)
    (h4 : out.s.matched = (s.matched + 1) % 256 ∨ out.s.matched = (s.matched + 2) % 256) :
    EmitDone M s out :=
  Or.inr (Or.inl ⟨h1, h2, h3, h4⟩)

theorem emitDone_ics {M : Prop} {s : Scanner} {out : ScanOut}
    (h1 : out.sym = some .INDENTED_CHUNK_START) (h2 : ¬M)
    (h3 : out.s.open_blocks = s.open_blocks ++ [INDENTED_CODE_BLOCK])
    (h4 : out.s.matched = (s.matched + 2) % 256) : EmitDone M s out :=
  Or.inr (Or.inr (Or.inl ⟨h1, h2, h3, h4⟩))

theorem emitDone_blank {M : Prop} {s : Scanner} {out : ScanOut}
    (h1 : out.sym = some .BLANK_LINE) (h2 : ¬M)
    (h3 : out.s.open_blocks = s.open_blocks.map loosen)
    (h4 : out.s.matched = (s.matched + 1) % 256) : EmitDone M s out :=
  Or.inr (Or.inr (Or.inr (Or.inl ⟨h1, h2, h3, h4⟩)))

theorem emitDone_quote {M : Prop} {s : Scanner} {out : ScanOut}
    (h1 : out.sym = some .BLOCK_QUOTE_START) (h2 : ¬M)
    (h3 : out.s.open_blocks = s.open_blocks ++ [BLOCK_QUOTE])
    (h4 : out.s.matched = (s.matched + 1) % 256) : EmitDone M s out :=
  Or.inr (Or.inr (Or.inr (Or.inr (Or.inl ⟨h1, h2, h3, h4⟩))))

theorem emitDone_close {M : Prop} {s : Scanner} {out : ScanOut}
    (h1 : out.sym = some .BLOCK_CLOSE) (h2 : M)
    (hg : s.open_blocks.getD s.matched 0 = FENCED_CODE_BLOCK_TILDE ∨
          s.open_blocks.getD s.matched 0 = FENCED_CODE_BLOCK_BACKTICK)
    (h3 : out.s.open_blocks = s.open_blocks.dropLast)
    (h4 : out.s.matched = (s.matched + 1) % 256) : EmitDone M s out :=
  Or.inr (Or.inr (Or.inr (Or.inr (Or.inr (Or.inl ⟨h1, h2, hg, h3, h4⟩)))))

theorem emitDone_fence {M : Prop} {s : Scanner} {out : ScanOut}
    (h1 : out.sym = some .FENCED_CODE_BLOCK_START) (h2 : ¬M)
    (h3 : out.s.open_blocks = s.open_blocks ++ [FENCED_CODE_BLOCK_TILDE] ∨
          out.s.open_blocks = s.open_blocks ++ [FENCED_CODE_BLOCK_BACKTICK])
    (h4 : out.s.matched = (s.matched + 2) % 256) : EmitDone M s out :=
  Or.inr (Or.inr (Or.inr (Or.inr (Or.inr (Or.inr (Or.inl ⟨h1, h2, h3, h4⟩))))))

theorem emitDone_atx {M : Prop} {s : Scanner} {out : ScanOut}
    (h1 : ∃ lvl, out.sym = some (atxToken lvl)) (h2 : ¬M) (hi : s.indentation ≤ 3)
    (h3 : out.s.open_blocks = s.open_blocks)
    (h4 : out.s.matched = (s.matched + 1) % 256) : EmitDone M s out :=
  Or.inr (Or.inr (Or.inr (Or.inr (Or.inr (Or.inr (Or.inr (Or.inl ⟨h1, h2, hi, h3, h4⟩)))))))

theorem emitDone_setext1 {M : Prop} {s : Scanner} {out : ScanOut}
    (h1 : out.sym = some .SETEXT_H1_UNDERLINE) (h2 : ¬M)
    (h3 : out.s.open_blocks = s.open_blocks)
    (h4 : out.s.matched = (s.matched + 1) % 256) : EmitDone M s out :=
  Or.inr (Or.inr (Or.inr (Or.inr (Or.inr (Or.inr (Or.inr (Or.inr (Or.inl ⟨h1, h2, h3, h4⟩))))))))

theorem emitDone_marker {M : Prop} {s : Scanner} {out : ScanOut}
    (h1 : out.sym = some .LIST_MARKER_PLUS ∨ out.sym = some .LIST_MARKER_DOT ∨
          out.sym = some .LIST_MARKER_PARENTHETHIS ∨ out.sym = some .LIST_MARKER_MINUS ∨
          out.sym = some .LIST_MARKER_STAR)
    (h2 : ¬M) (hi : s.indentation ≤ 3)
    (h3 : ∃ b, out.s.open_blocks = s.open_blocks ++ [b] ∧ TIGHT_LIST_ITEM ≤ b ∧
       b ≤ TIGHT_LIST_ITEM_MAX_INDENTATION)
    (h4 : out.s.matched = (s.matched + 1) % 256) : EmitDone M s out :=
  Or.inr (Or.inr (Or.inr (Or.inr (Or.inr (Or.inr (Or.inr (Or.inr (Or.inr (Or.inl
    ⟨h1, h2, hi, h3, h4⟩)))))))))

theorem emitDone_thematic {M : Prop} {s : Scanner} {out : ScanOut}
    (h1 : out.sym = some .THEMATIC_BREAK ∨
          out.sym = some .SETEXT_H2_UNDERLINE_OR_THEMATIC_BREAK ∨
          out.sym = some .SETEXT_H2_UNDERLINE)
    (h2 : ¬M) (hi : s.indentation ≤ 3)
    (h3 : out.s.open_blocks = s.open_blocks)
    (h4 : out.s.matched = (s.matched + 1) % 256) : EmitDone M s out :=
  Or.inr (Or.inr (Or.inr (Or.inr (Or.inr (Or.inr (Or.inr (Or.inr (Or.inr (Or.inr
    ⟨h1, h2, hi, h3, h4⟩)))))))))

/-- Emit-mode branch-switch outcomes: every early return fits `EmitDone`,
and a fall-through reaches the tail with only the column changed. -/
def EmitRes (M : Prop) (s : Scanner) : BranchRes → Prop
  | .done out => EmitDone M s out
  | .fall s3 _ => ∃ cv, s3 = { s with column := cv }

set_option maxHeartbeats 4000000 in
theorem scanSwitch_emit_spec (M : Prop) [Decidable M] (s : Scanner) (lx : Lexer)
    (valid : Mask) : EmitRes M s (scanSwitch false M s lx valid) := by
  unfold scanSwitch
  rcases hic : branchIndentedChunk false M s lx valid with out | ⟨s1, lx1⟩
  · rcases branchIndentedChunk_done_spec _ _ _ _ _ _ hic with h | ⟨hm2, h⟩ | ⟨-, hnm, h⟩
    · subst h
      exact emitDone_none rfl rfl rfl
    · subst h
      exact emitDone_cont rfl hm2 rfl (Or.inr rfl)
    · subst h
      exact emitDone_ics rfl hnm rfl rfl
  · obtain ⟨h1, h2⟩ := branchIndentedChunk_fall_spec _ _ _ _ _ _ _ hic
    rw [h1, h2]
    simp only []
    rcases hlc : branchListCont M s lx valid with out | ⟨s2, lx2⟩
    · obtain ⟨hm2, iv, h⟩ := branchListCont_done_spec _ _ _ _ _ hlc
      subst h
      exact emitDone_cont rfl hm2 rfl (Or.inl rfl)
    · obtain ⟨h3, h4⟩ := branchListCont_fall_spec _ _ _ _ _ _ hlc
      rw [h3, h4]
      simp only []
      split_ifs
      case _ =>
        rcases hb : branchBlank false M s lx valid with out | ⟨s', lx'⟩
        · rcases branchBlank_done_spec _ _ _ _ _ _ hb with h | ⟨-, hnm, h⟩
          · subst h
            exact emitDone_none rfl rfl rfl
          · subst h
            exact emitDone_blank rfl hnm rfl rfl
        · obtain ⟨h5, h6⟩ := branchBlank_fall_spec _ _ _ _ _ _ _ hb
          exact ⟨s.column, h5⟩
      case _ =>
        rcases hb : branchQuote false M s lx valid with out | ⟨s', lx'⟩
        · rcases branchQuote_done_spec _ _ _ _ _ _ hb with h | ⟨-, iv, cv, lx'', ⟨hm2, h⟩ | ⟨hnm, h⟩⟩
          · subst h
            exact emitDone_none rfl rfl rfl
          · subst h
            exact emitDone_cont rfl hm2 rfl (Or.inl rfl)
          · subst h
            exact emitDone_quote rfl hnm rfl rfl
        · obtain ⟨h5, h6⟩ := branchQuote_fall_spec _ _ _ _ _ _ _ hb
          exact ⟨s.column, h5⟩
      case _ =>
        rcases hb : branchTilde false M s lx valid with out | ⟨s', lx'⟩
        · rcases branchTilde_done_spec _ _ _ _ _ _ hb with ⟨cv, lxv, h⟩ |
            ⟨hm2, hg, cv, lxv, h⟩ | ⟨-, hnm, dl, cv, lxv, h⟩
          · subst h
            exact emitDone_none rfl rfl rfl
          · subst h
            exact emitDone_close rfl hm2 (Or.inl hg) rfl rfl
          · subst h
            exact emitDone_fence rfl hnm (Or.inl rfl) rfl
        · obtain ⟨cv, h5⟩ := branchTilde_fall_state _ _ _ _ _ _ _ hb
          exact ⟨cv, h5⟩
      case _ =>
        rcases hb : branchBacktick false M s lx valid with out | ⟨s', lx'⟩
        · rcases branchBacktick_done_spec _ _ _ _ _ _ hb with ⟨cv, lxv, h⟩ |
            ⟨hm2, hg, cv, lxv, h⟩ | ⟨-, hnm, dl, cv, lxv, h⟩
          · subst h
            exact emitDone_none rfl rfl rfl
          · subst h
            exact emitDone_close rfl hm2 (Or.inr hg) rfl rfl
          · subst h
            exact emitDone_fence rfl hnm (Or.inr rfl) rfl
        · obtain ⟨cv, h5⟩ := branchBacktick_fall_state _ _ _ _ _ _ _ hb
          exact ⟨cv, h5⟩
      case _ =>
        rcases hb : branchAtx false M s lx valid with out | ⟨s', lx'⟩
        · rcases branchAtx_done_spec _ _ _ _ _ _ hb with ⟨cv, lxv, h⟩ | ⟨-, hnm, hi, lvl, cv, lxv, h⟩
          · subst h
            exact emitDone_none rfl rfl rfl
          · subst h
            exact emitDone_atx ⟨lvl, rfl⟩ hnm hi rfl rfl
        · obtain ⟨cv, h5⟩ := branchAtx_fall_state _ _ _ _ _ _ _ hb
          exact ⟨cv, h5⟩
      case _ =>
        rcases hb : branchEq false M s lx valid with out | ⟨s', lx'⟩
        · obtain ⟨-, hnm, cv, lxv, h⟩ := branchEq_done_spec _ _ _ _ _ _ hb
          subst h
          exact emitDone_setext1 rfl hnm rfl rfl
        · obtain ⟨cv, h5⟩ := branchEq_fall_state _ _ _ _ _ _ _ hb
          exact ⟨cv, h5⟩
      case _ =>
        rcases hb : branchPlus false M s lx valid with out | ⟨s', lx'⟩
        · rcases branchPlus_done_spec _ _ _ _ _ _ hb with ⟨cv, lxv, h⟩ | ⟨-, hnm, hi, e, cv, lxv, h⟩
          · subst h
            exact emitDone_none rfl rfl rfl
          · subst h
            obtain ⟨b, hb1, hb2, hb3, hb4⟩ := pushListItem_spec s e cv
            exact emitDone_marker (Or.inl rfl) hnm hi ⟨b, hb1, hb3, hb4 hi⟩ hb2
        · obtain ⟨cv, h5⟩ := branchPlus_fall_state _ _ _ _ _ _ _ hb
          exact ⟨cv, h5⟩
      case _ =>
        rcases hb : branchDigits false M s lx valid with out | ⟨s', lx'⟩
        · rcases branchDigits_done_spec _ _ _ _ _ _ hb with ⟨cv, lxv, h⟩ |
            ⟨-, hnm, hi, sym', hsym, e, cv, lxv, h⟩
          · subst h
            exact emitDone_none rfl rfl rfl
          · subst h
            obtain ⟨b, hb1, hb2, hb3, hb4⟩ := pushListItem_spec s e cv
            refine emitDone_marker ?_ hnm hi ⟨b, hb1, hb3, hb4 hi⟩ hb2
            rcases hsym with h' | h' <;> subst h'
            · exact Or.inr (Or.inl rfl)
            · exact Or.inr (Or.inr (Or.inl rfl))
        · obtain ⟨cv, h5⟩ := branchDigits_fall_state _ _ _ _ _ _ _ hb
          exact ⟨cv, h5⟩
      case _ =>
        rcases hb : branchMinus false M s lx valid with out | ⟨s', lx'⟩
        · rcases branchMinus_done_spec _ _ _ _ _ _ hb with ⟨cv, lxv, h⟩ |
            ⟨-, hnm, hi, ⟨cv, lxv, h⟩ | ⟨e, cv, lxv, h⟩ | ⟨cv, lxv, h⟩ | ⟨cv, lxv, h⟩⟩
          · subst h
            exact emitDone_none rfl rfl rfl
          · subst h
            exact emitDone_thematic (Or.inl rfl) hnm hi rfl rfl
          · subst h
            obtain ⟨b, hb1, hb2, hb3, hb4⟩ := pushListItem_spec s e cv
            exact emitDone_marker (Or.inr (Or.inr (Or.inr (Or.inl rfl)))) hnm hi
              ⟨b, hb1, hb3, hb4 hi⟩ hb2
          · subst h
            exact emitDone_thematic (Or.inr (Or.inl rfl)) hnm hi rfl rfl
          · subst h
            exact emitDone_thematic (Or.inr (Or.inr rfl)) hnm hi rfl rfl
        · obtain ⟨cv, h5⟩ := branchMinus_fall_state _ _ _ _ _ _ _ hb
          exact ⟨cv, h5⟩
      case _ =>
        rcases hb : branchStarOp false M s lx valid with out | ⟨s', lx'⟩
        · rcases branchStarOp_done_spec _ _ _ _ _ _ hb with ⟨cv, lxv, h⟩ |
            ⟨-, hnm, hi, ⟨cv, lxv, h⟩ | ⟨e, cv, lxv, h⟩⟩
          · subst h
            exact emitDone_none rfl rfl rfl
          · subst h
            exact emitDone_thematic (Or.inl rfl) hnm hi rfl rfl
          · subst h
            obtain ⟨b, hb1, hb2, hb3, hb4⟩ := pushListItem_spec s e cv
            exact emitDone_marker (Or.inr (Or.inr (Or.inr (Or.inr rfl)))) hnm hi
              ⟨b, hb1, hb3, hb4 hi⟩ hb2
        · obtain ⟨cv, h5⟩ := branchStarOp_fall_state _ _ _ _ _ _ _ hb
          exact ⟨cv, h5⟩
      case _ =>
        rcases hb : branchUnderscoreOp false M s lx valid with out | ⟨s', lx'⟩
        · rcases branchUnderscoreOp_done_spec _ _ _ _ _ _ hb with ⟨cv, lxv, h⟩ |
            ⟨-, hnm, hi, cv, lxv, h⟩
          · subst h
            exact emitDone_none rfl rfl rfl
          · subst h
            exact emitDone_thematic (Or.inl rfl) hnm hi rfl rfl
        · obtain ⟨cv, h5⟩ := branchUnderscoreOp_fall_state _ _ _ _ _ _ _ hb
          exact ⟨cv, h5⟩
      case _ =>
        exact ⟨s.column, rfl⟩

/-- C3: on input that is not at EOF, a `scan` call (as the host makes it,
`check_block = false`) preserves the invariant
`matched ≤ open_blocks.length + 1`.  (At EOF the invariant can break: see
the counterexample theorem for this claim.) -/
theorem scan_preserves_matched_bound_nonempty_input (s : Scanner) (lx : Lexer)
    (valid : Mask)
    (hinv : s.matched ≤ s.open_blocks.length + 1) (hne : ¬lx.eof) :
    (scan s lx valid).s.matched ≤ (scan s lx valid).s.open_blocks.length + 1 := by
  have hscan : scan s lx valid = scanBody (scanCore 0 true) false s lx valid := rfl
  rw [hscan]
  unfold scanBody
  rw [if_neg hne]
  by_cases hpd : s.open_blocks.length < s.matched
  · rw [if_pos hpd]
    obtain ⟨hb, hm, -⟩ := phaseD_spec s lx valid _ rfl
    rw [hb]
    rcases hm with hm | hm <;> rw [hm] <;> omega
  · rw [if_neg hpd]
    rcases hp : branchIndentPre s lx valid with - | out
    · simp only []
      have hes := scanSwitch_emit_spec (matchingProp false s) s lx valid
      rcases hsw : scanSwitch false (matchingProp false s) s lx valid with out | ⟨s3, lx3⟩
      · rw [hsw] at hes
        simp only []
        rcases hes with ⟨-, h2, h3⟩ | ⟨-, hm2, h3, h4⟩ | ⟨-, -, h3, h4⟩ | ⟨-, -, h3, h4⟩ |
          ⟨-, -, h3, h4⟩ | ⟨-, hm2, -, h3, h4⟩ | ⟨-, -, h3, h4⟩ | ⟨-, -, -, h3, h4⟩ |
          ⟨-, -, h3, h4⟩ | ⟨-, -, -, ⟨b, h3, -, -⟩, h4⟩ | ⟨-, -, -, h3, h4⟩
        · rw [h2, h3]
          exact hinv
        · have hlt := hm2.2
          rw [h3]
          rcases h4 with h4 | h4 <;> rw [h4] <;>
            [have := Nat.mod_le (s.matched + 1) 256; have := Nat.mod_le (s.matched + 2) 256] <;>
            omega
        · rw [h3, h4]
          simp only [List.length_append, List.length_cons, List.length_nil]
          have := Nat.mod_le (s.matched + 2) 256
          omega
        · rw [h3, h4]
          simp only [List.length_map]
          have := Nat.mod_le (s.matched + 1) 256
          omega
        · rw [h3, h4]
          simp only [List.length_append, List.length_cons, List.length_nil]
          have := Nat.mod_le (s.matched + 1) 256
          omega
        · have hlt := hm2.2
          rw [h3, h4]
          simp only [List.length_dropLast]
          have := Nat.mod_le (s.matched + 1) 256
          omega
        · rcases h3 with h3 | h3 <;> rw [h3, h4] <;>
            simp only [List.length_append, List.length_cons, List.length_nil] <;>
            [have := Nat.mod_le (s.matched + 2) 256; have := Nat.mod_le (s.matched + 2) 256] <;>
            omega
        · rw [h3, h4]
          have := Nat.mod_le (s.matched + 1) 256
          omega
        · rw [h3, h4]
          have := Nat.mod_le (s.matched + 1) 256
          omega
        · rw [h3, h4]
          simp only [List.length_append, List.length_cons, List.length_nil]
          have := Nat.mod_le (s.matched + 1) 256
          omega
        · rw [h3, h4]
          have := Nat.mod_le (s.matched + 1) 256
          omega
      · rw [hsw] at hes
        obtain ⟨cv, hcv⟩ := hes
        have hm3 : s3.matched = s.matched := by rw [hcv]
        have hb3 : s3.open_blocks = s.open_blocks := by rw [hcv]
        simp only []
        have ht := scanTail_emit_spec (matchingProp false s) s3 lx3 valid _
          (fun hM => by rw [hm3, hb3]; exact hM.2) rfl
        rcases ht with ⟨hm2, -, h3, h4⟩ | ⟨hm2, -, h3, h4⟩ | ⟨hm2, B, hB, -, h3, h4⟩ |
          ⟨-, -, h3, h4⟩
        · have hlt := hm2.2
          rw [h3, h4, hb3, hm3]
          have := Nat.mod_le (s.matched + 2) 256
          omega
        · rw [h4]
          have := Nat.mod_le ((scanTail (scanCore 0 true) false (matchingProp false s)
            s3 lx3 valid).s.open_blocks.length + 1) 256
          omega
        · have hlt := hm2.2
          rw [h3, h4, hm3]
          rcases hB with hB | ⟨-, hB⟩ <;> rw [hB, hb3] <;>
            simp only [List.length_dropLast] <;> omega
        · rw [h3, h4, hb3, hm3]
          have := Nat.mod_le (s.matched + 1) 256
          omega
    · obtain ⟨iv, cv, lx', hout⟩ := branchIndentPre_some_spec _ _ _ _ hp
      simp only [hout]
      exact hinv

theorem scan_preserves_matched_bound_nonempty_input_witness :
    freshScanner.matched ≤ freshScanner.open_blocks.length + 1 ∧
    ¬(Lexer.mk ['x'] 0 none).eof ∧
    (scan freshScanner ⟨['x'], 0, none⟩ (maskOf [])).s.matched ≤
      (scan freshScanner ⟨['x'], 0, none⟩ (maskOf [])).s.open_blocks.length + 1 :=
  ⟨by decide, by decide,
   scan_preserves_matched_bound_nonempty_input freshScanner ⟨['x'], 0, none⟩ (maskOf [])
     (by decide) (by decide)⟩

/-- The opener tokens whose branches are guarded by `indentation <= 3`
(lines 462-481, 499-524, 526-577, 579-654, 655-716, 717-742): the ATX
headings, the thematic-break/Setext-H2 family, and the list markers.
The block-quote, fenced-code and Setext-H1 openers are NOT in this set:
their branches have no indentation guard. -/
def guardedOpenerSym (t : Tok) : Prop :=
  t = .ATX_H1_MARKER ∨ t = .ATX_H2_MARKER ∨ t = .ATX_H3_MARKER ∨ t = .ATX_H4_MARKER ∨
  t = .ATX_H5_MARKER ∨ t = .ATX_H6_MARKER ∨ t = .SETEXT_H2_UNDERLINE ∨
  t = .SETEXT_H2_UNDERLINE_OR_THEMATIC_BREAK ∨ t = .THEMATIC_BREAK ∨
  t = .LIST_MARKER_PLUS ∨ t = .LIST_MARKER_MINUS ∨ t = .LIST_MARKER_STAR ∨
  t = .LIST_MARKER_DOT ∨ t = .LIST_MARKER_PARENTHETHIS

instance : DecidablePred guardedOpenerSym := fun t => by
  unfold guardedOpenerSym; infer_instance

/-- C5: with `indentation >= 4` no indentation-guarded opener token is
ever emitted by a host `scan` call.  (The guarded set deliberately
excludes the block-quote, fenced-code and Setext-H1 openers, which the
code does not indentation-guard: see this claim's counterexample.) -/
theorem scan_guarded_openers_need_low_indentation (s : Scanner) (lx : Lexer)
    (valid : Mask) (t : Tok) (hind : 4 ≤ s.indentation)
    (h : (scan s lx valid).sym = some t) : ¬ guardedOpenerSym t := by
  revert h
  have hscan : scan s lx valid = scanBody (scanCore 0 true) false s lx valid := rfl
  rw [hscan]
  unfold scanBody
  by_cases heof : lx.eof
  · rw [if_pos heof]
    unfold scanEof
    split_ifs
    · intro h
      injection h with h2
      subst h2
      rcases closeSymFor_cases (s.open_blocks.getD (s.open_blocks.length - 1) 0) with hc | hc <;>
        rw [hc] <;> decide
    · intro h
      exact absurd h (by simp)
  · rw [if_neg heof]
    by_cases hpd : s.open_blocks.length < s.matched
    · rw [if_pos hpd]
      obtain ⟨-, -, hsym⟩ := phaseD_spec s lx valid _ rfl
      intro h
      rcases hsym with hs | hs | hs | hs | hs | hs | hs | hs | hs <;> rw [hs] at h <;>
        first
          | exact Option.noConfusion h
          | (injection h with h2; subst h2; decide)
    · rw [if_neg hpd]
      rcases hp : branchIndentPre s lx valid with - | out
      · simp only []
        have hes := scanSwitch_emit_spec (matchingProp false s) s lx valid
        rcases hsw : scanSwitch false (matchingProp false s) s lx valid with out | ⟨s3, lx3⟩
        · rw [hsw] at hes
          simp only []
          intro h
          rcases hes with ⟨hs, -, -⟩ | ⟨hs, -, -, -⟩ | ⟨hs, -, -, -⟩ | ⟨hs, -, -, -⟩ |
            ⟨hs, -, -, -⟩ | ⟨hs, -, -, -, -⟩ | ⟨hs, -, -, -⟩ | ⟨-, -, hi, -, -⟩ |
            ⟨hs, -, -, -⟩ | ⟨-, -, hi, -, -⟩ | ⟨-, -, hi, -, -⟩
          all_goals try (exfalso; omega)
          all_goals rw [hs] at h
          all_goals first
            | exact Option.noConfusion h
            | (injection h with h2; subst h2; decide)
        · rw [hsw] at hes
          obtain ⟨cv, hcv⟩ := hes
          simp only []
          intro h
          have ht := scanTail_emit_spec (matchingProp false s) s3 lx3 valid _
            (fun hM => by rw [hcv]; exact hM.2) rfl
          rcases ht with ⟨-, hs, -, -⟩ | ⟨-, hs, -, -⟩ | ⟨-, B, -, hs, -, -⟩ | ⟨-, hs, -, -⟩
          all_goals rw [hs] at h
          all_goals try (injection h with h2; subst h2; decide)
          injection h with h2
          subst h2
          rcases closeSymFor_cases (B.getD (B.length - 1) 0) with hc | hc <;>
            rw [hc] <;> decide
      · obtain ⟨iv, cv, lx', hout⟩ := branchIndentPre_some_spec _ _ _ _ hp
        simp only [hout]
        intro h
        injection h with h2
        subst h2
        decide

theorem scan_guarded_openers_need_low_indentation_witness :
    4 ≤ (Scanner.mk [] 0 4 0 0 0 0 0).indentation ∧
    (scan (Scanner.mk [] 0 4 0 0 0 0 0) ⟨['>', ' ', 'x'], 0, none⟩
      (maskOf [.BLOCK_QUOTE_START])).sym = some .BLOCK_QUOTE_START ∧
    ¬ guardedOpenerSym .BLOCK_QUOTE_START :=
  ⟨by decide, by decide,
   scan_guarded_openers_need_low_indentation (Scanner.mk [] 0 4 0 0 0 0 0)
     ⟨['>', ' ', 'x'], 0, none⟩ (maskOf [.BLOCK_QUOTE_START]) .BLOCK_QUOTE_START
     (by decide) (by decide)⟩

/-- One continuation call of a pending `*` emphasis run (lines 233-250):
with delimiters left, open polarity recorded, and the open bit valid, the
call emits one `EMPHASIS_OPEN_STAR` and decrements the counter. -/
theorem scan_open_star_step (s : Scanner) (rs : List Char)
    (hm : s.open_blocks.length < s.matched)
    (hL : 0 < s.num_emphasis_delimiters_left)
    (ho : s.emphasis_delimiters_is_open ≠ 0) :
    scan s ⟨'*' :: rs, 0, none⟩ (maskOf [.EMPHASIS_OPEN_STAR]) =
    ⟨true, some .EMPHASIS_OPEN_STAR,
     { s with column := (s.column + 1) % 256,
              num_emphasis_delimiters_left :=
                (s.num_emphasis_delimiters_left + 255) % 256 },
     ⟨rs, 1, none⟩⟩ := by
  have h0 : scan s ⟨'*' :: rs, 0, none⟩ (maskOf [.EMPHASIS_OPEN_STAR]) =
      scanBody (scanCore 0 true) false s ⟨'*' :: rs, 0, none⟩
        (maskOf [.EMPHASIS_OPEN_STAR]) := rfl
  rw [h0]
  unfold scanBody
  rw [if_neg (show ¬(Lexer.mk ('*' :: rs) 0 none).eof from by simp [Lexer.eof]),
      if_pos hm]
  unfold phaseD
  rw [if_neg (by rintro ⟨hv, -⟩; exact absurd hv (by decide))]
  rw [if_neg (by simp [Lexer.lookahead]), if_neg (by simp [Lexer.lookahead]),
      if_neg (by simp [Lexer.lookahead]), if_pos (by simp [Lexer.lookahead])]
  unfold phaseDStar
  rw [if_pos hL, if_pos ⟨ho, by decide⟩]
  rfl

/-- Draining a pending `*` run: `j` continuation calls, each with the
open bit valid, emit `j` open-star tokens and leave the rest of the
input untouched. -/
theorem traceOpenStarCont (j : Nat) : ∀ (s : Scanner) (input : List Char),
    s.open_blocks.length < s.matched →
    j ≤ s.num_emphasis_delimiters_left →
    s.num_emphasis_delimiters_left ≤ 255 →
    s.emphasis_delimiters_is_open ≠ 0 →
    ∃ fs, runTrace s (List.replicate j '*' ++ input)
        (List.replicate j (maskOf [.EMPHASIS_OPEN_STAR])) =
      (List.replicate j (some .EMPHASIS_OPEN_STAR), fs, input) ∧
      fs.num_emphasis_delimiters_left = s.num_emphasis_delimiters_left - j ∧
      fs.num_emphasis_delimiters = s.num_emphasis_delimiters := by
  induction j with
  | zero =>
    intro s input hm hL hL2 ho
    exact ⟨s, by simp [runTrace], by omega, rfl⟩
  | succ j ih =>
    intro s input hm hL hL2 ho
    rw [List.replicate_succ, List.cons_append, List.replicate_succ, List.replicate_succ]
    rw [runTrace]
    rw [scan_open_star_step s _ hm (by omega) ho]
    simp only []
    simp only [Option.getD_none, List.drop_succ_cons, List.drop_zero]
    obtain ⟨fs, h1, h2, h3⟩ := ih
      { s with column := (s.column + 1) % 256,
               num_emphasis_delimiters_left :=
                 (s.num_emphasis_delimiters_left + 255) % 256 }
      input hm (by simp only []; omega) (by simp only []; omega) ho
    rw [h1]
    refine ⟨fs, rfl, ?_, h3⟩
    simp only [] at h2
    omega

/-- The head call of a `*` emphasis run (lines 251-267): from a state
with no pending delimiters, a run of `1 + j` stars followed by `a` with
only the open bit valid records the run length, chooses the open
polarity by the flanking rules, emits the first token, and marks the
token end after one star. -/
theorem scan_open_star_head (j : Nat) :
    scan ⟨[], 1, 0, 0, 0, 0, 0, 0⟩
      ⟨'*' :: (List.replicate j '*' ++ ['a']), 0, none⟩
      (maskOf [.EMPHASIS_OPEN_STAR]) =
    ⟨true, some .EMPHASIS_OPEN_STAR,
     ⟨[], 1, 0, (1 + j) % 256, 0, (1 + j) % 256, ((1 + j) % 256 + 255) % 256, 1⟩,
     ⟨['a'], 1 + j, some 1⟩⟩ := by
  have h0 : scan ⟨[], 1, 0, 0, 0, 0, 0, 0⟩
      ⟨'*' :: (List.replicate j '*' ++ ['a']), 0, none⟩ (maskOf [.EMPHASIS_OPEN_STAR]) =
      scanBody (scanCore 0 true) false ⟨[], 1, 0, 0, 0, 0, 0, 0⟩
        ⟨'*' :: (List.replicate j '*' ++ ['a']), 0, none⟩
        (maskOf [.EMPHASIS_OPEN_STAR]) := rfl
  rw [h0]
  unfold scanBody
  rw [if_neg (show ¬(Lexer.mk ('*' :: (List.replicate j '*' ++ ['a'])) 0 none).eof from
        by simp [Lexer.eof]),
      if_pos (by decide)]
  unfold phaseD
  rw [if_neg (by rintro ⟨hv, -⟩; exact absurd hv (by decide))]
  rw [if_neg (by simp [Lexer.lookahead]), if_neg (by simp [Lexer.lookahead]),
      if_neg (by simp [Lexer.lookahead]), if_pos (by simp [Lexer.lookahead])]
  unfold phaseDStar
  rw [if_neg (by decide), if_pos (Or.inl (by decide))]
  simp only [advRes, lxAdv, Lexer.markEnd, Lexer.lookahead, List.head?_cons,
    List.tail_cons, List.isEmpty_cons, Bool.false_eq_true, if_false,
    show stepSize '*' 0 = 1 from by decide]
  rw [runWhile_replicate (fun c => c == '*') '*' (by decide) (by decide) j 'a' []
    (by decide) _ _ (by norm_num)]
  rw [if_neg (by rintro ⟨hc, -⟩; exact absurd hc (by decide))]
  simp only [List.head?_cons]
  rw [if_pos (show leftFlanking (maskOf [.EMPHASIS_OPEN_STAR]) (some 'a') from by decide)]

/-- C9: for a run of `k` stars (1 <= k <= 255) consumed in Phase D whose
head call chooses the open polarity, the run yields exactly `k` tokens of
that same polarity — provided every subsequent call's mask still has the
chosen polarity's bit set (without that bit the polarity is not
maintained: see this claim's counterexample).  The head call records the
run length, and after the run the delimiter counter is exhausted with
exactly the `k` stars consumed. -/
theorem scan_emphasis_run_open_polarity_with_open_bit (k : Nat)
    (hk1 : 1 ≤ k) (hk2 : k ≤ 255) :
    (runTrace ⟨[], 1, 0, 0, 0, 0, 0, 0⟩ (List.replicate k '*' ++ ['a'])
       (List.replicate k (maskOf [.EMPHASIS_OPEN_STAR]))).1 =
      List.replicate k (some .EMPHASIS_OPEN_STAR) ∧
    (runTrace ⟨[], 1, 0, 0, 0, 0, 0, 0⟩ (List.replicate k '*' ++ ['a'])
       (List.replicate k (maskOf [.EMPHASIS_OPEN_STAR]))).2.1.num_emphasis_delimiters = k ∧
    (runTrace ⟨[], 1, 0, 0, 0, 0, 0, 0⟩ (List.replicate k '*' ++ ['a'])
       (List.replicate k (maskOf [.EMPHASIS_OPEN_STAR]))).2.1.num_emphasis_delimiters_left
      = 0 ∧
    (runTrace ⟨[], 1, 0, 0, 0, 0, 0, 0⟩ (List.replicate k '*' ++ ['a'])
       (List.replicate k (maskOf [.EMPHASIS_OPEN_STAR]))).2.2 = ['a'] := by
  obtain ⟨j, rfl⟩ : ∃ j, k = j + 1 := ⟨k - 1, by omega⟩
  simp only [List.replicate_succ, List.cons_append]
  rw [runTrace]
  rw [scan_open_star_head j]
  simp only [Option.getD_some, List.drop_one, List.tail_cons]
  obtain ⟨fs, h1, h2, h3⟩ := traceOpenStarCont j
    ⟨[], 1, 0, (1 + j) % 256, 0, (1 + j) % 256, ((1 + j) % 256 + 255) % 256, 1⟩
    ['a'] Nat.zero_lt_one
    (show j ≤ ((1 + j) % 256 + 255) % 256 by omega)
    (show ((1 + j) % 256 + 255) % 256 ≤ 255 by omega)
    one_ne_zero
  rw [h1]
  refine ⟨rfl, ?_, ?_, rfl⟩
  · show fs.num_emphasis_delimiters = j + 1
    rw [h3]
    show (1 + j) % 256 = j + 1
    omega
  · show fs.num_emphasis_delimiters_left = 0
    rw [h2]
    show ((1 + j) % 256 + 255) % 256 - j = 0
    omega

theorem scan_emphasis_run_open_polarity_with_open_bit_witness :
    1 ≤ 3 ∧ 3 ≤ 255 ∧
    (runTrace ⟨[], 1, 0, 0, 0, 0, 0, 0⟩ (List.replicate 3 '*' ++ ['a'])
       (List.replicate 3 (maskOf [.EMPHASIS_OPEN_STAR]))).1 =
      List.replicate 3 (some .EMPHASIS_OPEN_STAR) :=
  ⟨by decide, by decide,
   (scan_emphasis_run_open_polarity_with_open_bit 3 (by decide) (by decide)).1⟩

set_option maxHeartbeats 2000000 in
/-- In an emitting call that is still matching, a fall-through to the
tail either left the lexer untouched, or the consuming branch was a
fence-continuation attempt, in which case the block being matched is a
fenced code block. -/
theorem scanSwitch_emit_fall_lx (M : Prop) [Decidable M] (s : Scanner) (lx : Lexer)
    (valid : Mask) (s3 : Scanner) (lx3 : Lexer)
    (h : scanSwitch false M s lx valid = .fall s3 lx3) (hm : M) :
    lx3 = lx ∨ s.open_blocks.getD s.matched 0 = FENCED_CODE_BLOCK_TILDE ∨
    s.open_blocks.getD s.matched 0 = FENCED_CODE_BLOCK_BACKTICK := by
  unfold scanSwitch at h
  rcases hic : branchIndentedChunk false M s lx valid with out | ⟨s1, lx1⟩
  · rw [hic] at h
    cases h
  · rw [hic] at h
    obtain ⟨h1, h2⟩ := branchIndentedChunk_fall_spec _ _ _ _ _ _ _ hic
    subst h1
    subst h2
    simp only [] at h
    rcases hlc : branchListCont M s1 lx1 valid with out | ⟨s2, lx2⟩
    · rw [hlc] at h
      cases h
    · rw [hlc] at h
      obtain ⟨h3, h4⟩ := branchListCont_fall_spec _ _ _ _ _ _ hlc
      subst h3
      subst h4
      simp only [] at h
      split_ifs at h
      · obtain ⟨h5, h6⟩ := branchBlank_fall_spec _ _ _ _ _ _ _ h
        exact Or.inl h6
      · obtain ⟨h5, h6⟩ := branchQuote_fall_spec _ _ _ _ _ _ _ h
        exact Or.inl h6
      · rcases branchTilde_fall_lx _ _ _ _ _ _ _ hm h with h6 | h6
        · exact Or.inl h6
        · exact Or.inr (Or.inl h6)
      · rcases branchBacktick_fall_lx _ _ _ _ _ _ _ hm h with h6 | h6
        · exact Or.inl h6
        · exact Or.inr (Or.inr h6)
      · obtain ⟨h5, h6⟩ := branchAtx_fall_lx _ _ _ _ _ _ _ hm h
        exact Or.inl h6
      · obtain ⟨h5, h6⟩ := branchEq_fall_lx _ _ _ _ _ _ _ hm h
        exact Or.inl h6
      · obtain ⟨h5, h6⟩ := branchPlus_fall_lx _ _ _ _ _ _ _ hm h
        exact Or.inl h6
      · obtain ⟨h5, h6⟩ := branchDigits_fall_lx _ _ _ _ _ _ _ hm h
        exact Or.inl h6
      · obtain ⟨h5, h6⟩ := branchMinus_fall_lx _ _ _ _ _ _ _ hm h
        exact Or.inl h6
      · obtain ⟨h5, h6⟩ := branchStarOp_fall_lx _ _ _ _ _ _ _ hm h
        exact Or.inl h6
      · obtain ⟨h5, h6⟩ := branchUnderscoreOp_fall_lx _ _ _ _ _ _ _ hm h
        exact Or.inl h6
      · simp only [BranchRes.fall.injEq] at h
        exact Or.inl h.2.symm

theorem getD_map_loosen (l : List Nat) (p : Nat) (h : p < l.length) :
    (l.map loosen).getD p 0 = loosen (l.getD p 0) := by
  rw [List.getD_eq_getElem l 0 h, List.getD_eq_getElem (l.map loosen) 0 (by simpa using h)]
  exact List.getElem_map loosen

theorem getD_dropLast (l : List Nat) (i : Nat) (h : i + 1 < l.length) :
    l.dropLast.getD i 0 = l.getD i 0 := by
  have h1 : i < l.dropLast.length := by
    rw [List.length_dropLast]; omega
  rw [List.getD_eq_getElem l 0 (by omega), List.getD_eq_getElem l.dropLast 0 h1]
  exact List.getElem_dropLast l i h1

theorem loosen_tight_isLoose (b : Nat)
    (h1 : TIGHT_LIST_ITEM ≤ b) (h2 : b ≤ TIGHT_LIST_ITEM_MAX_INDENTATION) :
    isLooseItem (loosen b) := by
  unfold loosen isLooseItem
  rw [if_pos ⟨h1, h2⟩]
  have e1 : TIGHT_LIST_ITEM = 2 := rfl
  have e2 : TIGHT_LIST_ITEM_MAX_INDENTATION = 8 := rfl
  have e3 : LOOSE_LIST_ITEM = 9 := rfl
  have e4 : LOOSE_LIST_ITEM_MAX_INDENTATION = 15 := rfl
  omega

theorem closeSymFor_loose (b : Nat) (h : isLooseItem b) :
    closeSymFor b = .BLOCK_CLOSE_LOOSE := by
  unfold closeSymFor
  rw [if_pos h]

/-- The stack well-formedness the grammar's `valid_symbols` discipline
maintains: a fenced code block, which admits no nested blocks, can only
sit at the top of the open-block stack. -/
def wfFences (s : Scanner) : Prop :=
  ∀ i, i < s.open_blocks.length →
    (s.open_blocks.getD i 0 = FENCED_CODE_BLOCK_TILDE ∨
     s.open_blocks.getD i 0 = FENCED_CODE_BLOCK_BACKTICK) →
    i = s.open_blocks.length - 1

theorem loosen_loose_eq (b : Nat) (h : isLooseItem b) : loosen b = b := by
  unfold loosen
  rw [if_neg]
  rintro ⟨-, h2⟩
  obtain ⟨h1, -⟩ := h
  have e1 : TIGHT_LIST_ITEM_MAX_INDENTATION = 8 := rfl
  have e2 : LOOSE_LIST_ITEM = 9 := rfl
  omega

theorem emitDone_c8a (M : Prop) (s : Scanner) (out : ScanOut) (h : EmitDone M s out)
    (hb : out.sym = some .BLANK_LINE) :
    out.s.open_blocks = s.open_blocks.map loosen := by
  rcases h with ⟨h1, -, -⟩ | ⟨h1, -, -, -⟩ | ⟨h1, -, -, -⟩ | ⟨h1, -, h3, -⟩ | ⟨h1, -, -, -⟩ |
    ⟨h1, -, -, -, -⟩ | ⟨h1, -, -, -⟩ | ⟨⟨lvl, h1⟩, -, -, -, -⟩ | ⟨h1, -, -, -⟩ |
    ⟨h1, -, -, -, -⟩ | ⟨h1, -, -, -, -⟩
  · rw [h1] at hb
    exact Option.noConfusion hb
  · rw [h1] at hb
    injection hb with h2
    exact absurd h2 (by decide)
  · rw [h1] at hb
    injection hb with h2
    exact absurd h2 (by decide)
  · exact h3
  · rw [h1] at hb
    injection hb with h2
    exact absurd h2 (by decide)
  · rw [h1] at hb
    injection hb with h2
    exact absurd h2 (by decide)
  · rw [h1] at hb
    injection hb with h2
    exact absurd h2 (by decide)
  · rw [h1] at hb
    injection hb with h2
    rcases atxToken_mem lvl with ha | ha | ha | ha | ha | ha <;> rw [ha] at h2 <;>
      exact absurd h2 (by decide)
  · rw [h1] at hb
    injection hb with h2
    exact absurd h2 (by decide)
  · rcases h1 with h1 | h1 | h1 | h1 | h1 <;> rw [h1] at hb <;> injection hb with h2 <;>
      exact absurd h2 (by decide)
  · rcases h1 with h1 | h1 | h1 <;> rw [h1] at hb <;> injection hb with h2 <;>
      exact absurd h2 (by decide)

theorem emitDone_c8b (M : Prop) (s : Scanner) (out : ScanOut) (h : EmitDone M s out)
    (p : Nat) (hp1 : p < out.s.open_blocks.length) (hp2 : p < s.open_blocks.length)
    (hl : isLooseItem (s.open_blocks.getD p 0)) :
    isLooseItem (out.s.open_blocks.getD p 0) := by
  rcases h with ⟨-, -, h3⟩ | ⟨-, -, h3, -⟩ | ⟨-, -, h3, -⟩ | ⟨-, -, h3, -⟩ | ⟨-, -, h3, -⟩ |
    ⟨-, -, -, h3, -⟩ | ⟨-, -, h3, -⟩ | ⟨-, -, -, h3, -⟩ | ⟨-, -, h3, -⟩ |
    ⟨-, -, -, ⟨b, h3, -, -⟩, -⟩ | ⟨-, -, -, h3, -⟩
  · rw [h3]; exact hl
  · rw [h3]; exact hl
  · rw [h3, List.getD_append _ _ 0 p hp2]; exact hl
  · rw [h3, getD_map_loosen _ _ hp2, loosen_loose_eq _ hl]; exact hl
  · rw [h3, List.getD_append _ _ 0 p hp2]; exact hl
  · rw [h3] at hp1 ⊢
    rw [getD_dropLast _ _ (by rw [List.length_dropLast] at hp1; omega)]
    exact hl
  · rcases h3 with h3 | h3 <;> rw [h3, List.getD_append _ _ 0 p hp2] <;> exact hl
  · rw [h3]; exact hl
  · rw [h3]; exact hl
  · rw [h3, List.getD_append _ _ 0 p hp2]; exact hl
  · rw [h3]; exact hl

theorem emitDone_c8c (M : Prop) (s : Scanner) (out : ScanOut) (h : EmitDone M s out)
    (hwf : wfFences s) (hM : M → s.matched < s.open_blocks.length)
    (p : Nat) (hp : p < s.open_blocks.length)
    (hl : isLooseItem (s.open_blocks.getD p 0))
    (hgone : out.s.open_blocks.length ≤ p) : False := by
  rcases h with ⟨-, -, h3⟩ | ⟨-, -, h3, -⟩ | ⟨-, -, h3, -⟩ | ⟨-, -, h3, -⟩ | ⟨-, -, h3, -⟩ |
    ⟨-, hm2, hg, h3, -⟩ | ⟨-, -, h3, -⟩ | ⟨-, -, -, h3, -⟩ | ⟨-, -, h3, -⟩ |
    ⟨-, -, -, ⟨b, h3, -, -⟩, -⟩ | ⟨-, -, -, h3, -⟩
  · rw [h3] at hgone; omega
  · rw [h3] at hgone; omega
  · rw [h3, List.length_append] at hgone; simp at hgone; omega
  · rw [h3, List.length_map] at hgone; omega
  · rw [h3, List.length_append] at hgone; simp at hgone; omega
  · rw [h3, List.length_dropLast] at hgone
    have hmeq := hwf s.matched (hM hm2) hg
    have hpm : p = s.matched := by omega
    rw [hpm] at hl
    obtain ⟨-, hl2⟩ := hl
    have e1 : FENCED_CODE_BLOCK_TILDE = 16 := rfl
    have e2 : FENCED_CODE_BLOCK_BACKTICK = 17 := rfl
    have e3 : LOOSE_LIST_ITEM_MAX_INDENTATION = 15 := rfl
    rcases hg with hg | hg <;> rw [hg] at hl2 <;> omega
  · rcases h3 with h3 | h3 <;> rw [h3, List.length_append] at hgone <;> simp at hgone <;> omega
  · rw [h3] at hgone; omega
  · rw [h3] at hgone; omega
  · rw [h3, List.length_append] at hgone; simp at hgone; omega
  · rw [h3] at hgone; omega

/-- C8: (a) when a host `scan` call emits `BLANK_LINE`, every tight list
item on the open-block stack becomes loose in place; (b) a loose entry
never reverts to tight; (c) under the fence well-formedness the grammar
maintains, any call that removes a loose item from the stack emits
`BLOCK_CLOSE_LOOSE` — never plain `BLOCK_CLOSE` — so an item on the
stack during a blank-line emission is eventually closed loose. -/
theorem scan_blank_line_loosens_and_loose_closes_loose
    (s : Scanner) (lx : Lexer) (valid : Mask) :
    ((scan s lx valid).sym = some .BLANK_LINE →
       (scan s lx valid).s.open_blocks.length = s.open_blocks.length ∧
       ∀ p, p < s.open_blocks.length →
         TIGHT_LIST_ITEM ≤ s.open_blocks.getD p 0 →
         s.open_blocks.getD p 0 ≤ TIGHT_LIST_ITEM_MAX_INDENTATION →
         isLooseItem ((scan s lx valid).s.open_blocks.getD p 0)) ∧
    (∀ p, p < (scan s lx valid).s.open_blocks.length → p < s.open_blocks.length →
       isLooseItem (s.open_blocks.getD p 0) →
       isLooseItem ((scan s lx valid).s.open_blocks.getD p 0)) ∧
    (wfFences s →
       ∀ p, p < s.open_blocks.length →
         isLooseItem (s.open_blocks.getD p 0) →
         (scan s lx valid).s.open_blocks.length ≤ p →
         (scan s lx valid).sym = some .BLOCK_CLOSE_LOOSE) := by
  have hscan : scan s lx valid = scanBody (scanCore 0 true) false s lx valid := rfl
  rw [hscan]
  unfold scanBody
  by_cases heof : lx.eof
  · rw [if_pos heof]
    unfold scanEof
    split_ifs with hlen
    · refine ⟨?_, ?_, ?_⟩
      · intro hb
        rcases closeSymFor_cases (s.open_blocks.getD (s.open_blocks.length - 1) 0) with
          hc | hc <;> rw [hc] at hb <;> (injection hb with h2; exact absurd h2 (by decide))
      · intro p hp1 hp2 hl
        have hp1' : p < s.open_blocks.dropLast.length := hp1
        show isLooseItem (s.open_blocks.dropLast.getD p 0)
        rw [getD_dropLast _ _ (by rw [List.length_dropLast] at hp1'; omega)]
        exact hl
      · intro hwf p hp2 hl hgone
        have hgone' : s.open_blocks.dropLast.length ≤ p := hgone
        rw [List.length_dropLast] at hgone'
        have hpm : p = s.open_blocks.length - 1 := by omega
        show some (closeSymFor (s.open_blocks.getD (s.open_blocks.length - 1) 0)) =
          some Tok.BLOCK_CLOSE_LOOSE
        rw [← hpm, closeSymFor_loose _ hl]
    · refine ⟨?_, ?_, ?_⟩
      · intro hb
        exact hb.elim
      · intro p hp1 hp2 hl
        exact hl
      · intro hwf p hp2 hl hgone
        have hgone' : s.open_blocks.length ≤ p := hgone
        omega
  · rw [if_neg heof]
    by_cases hpd : s.open_blocks.length < s.matched
    · rw [if_pos hpd]
      obtain ⟨hb, -, hsym⟩ := phaseD_spec s lx valid _ rfl
      refine ⟨?_, ?_, ?_⟩
      · intro h
        rcases hsym with hs | hs | hs | hs | hs | hs | hs | hs | hs <;> rw [hs] at h <;>
          first
            | exact Option.noConfusion h
            | (injection h with h2; exact absurd h2 (by decide))
      · intro p hp1 hp2 hl
        rw [hb]
        exact hl
      · intro hwf p hp2 hl hgone
        rw [hb] at hgone
        omega
    · rw [if_neg hpd]
      rcases hp : branchIndentPre s lx valid with - | out
      · simp only []
        have hes := scanSwitch_emit_spec (matchingProp false s) s lx valid
        rcases hsw : scanSwitch false (matchingProp false s) s lx valid with out | ⟨s3, lx3⟩
        · rw [hsw] at hes
          simp only []
          refine ⟨?_, ?_, ?_⟩
          · intro hb
            have ha := emitDone_c8a _ _ _ hes hb
            refine ⟨by rw [ha, List.length_map], ?_⟩
            intro p hp2 ht1 ht2
            rw [ha, getD_map_loosen _ _ hp2]
            exact loosen_tight_isLoose _ ht1 ht2
          · intro p hp1 hp2 hl
            exact emitDone_c8b _ _ _ hes p hp1 hp2 hl
          · intro hwf p hp2 hl hgone
            exact (emitDone_c8c _ _ _ hes hwf (fun hm => hm.2) p hp2 hl hgone).elim
        · rw [hsw] at hes
          obtain ⟨cv, hcv⟩ := hes
          have hm3 : s3.matched = s.matched := by rw [hcv]
          have hb3 : s3.open_blocks = s.open_blocks := by rw [hcv]
          simp only []
          have ht := scanTail_emit_spec (matchingProp false s) s3 lx3 valid _
            (fun hM => by rw [hm3, hb3]; exact hM.2) rfl
          refine ⟨?_, ?_, ?_⟩
          · intro hb
            rcases ht with ⟨-, hs, -, -⟩ | ⟨-, hs, -, -⟩ | ⟨-, B, -, hs, -, -⟩ | ⟨-, hs, -, -⟩
            · rw [hs] at hb
              injection hb with h2
              exact absurd h2 (by decide)
            · rw [hs] at hb
              injection hb with h2
              exact absurd h2 (by decide)
            · rw [hs] at hb
              injection hb with h2
              rcases closeSymFor_cases (B.getD (B.length - 1) 0) with hc | hc <;>
                rw [hc] at h2 <;> exact absurd h2 (by decide)
            · rw [hs] at hb
              injection hb with h2
              exact absurd h2 (by decide)
          · intro p hp1 hp2 hl
            rcases ht with ⟨-, -, h3, -⟩ | ⟨-, -, h3, -⟩ | ⟨-, B, hB, -, h3, -⟩ | ⟨-, -, h3, -⟩
            · rw [h3, hb3]
              exact hl
            · rw [h3, hb3]
              exact hl
            · rw [h3] at hp1 ⊢
              rcases hB with hB | ⟨-, hB⟩
              · rw [hB, hb3] at hp1 ⊢
                rw [getD_dropLast _ _ (by rw [List.length_dropLast] at hp1; omega)]
                exact hl
              · rw [hB, hb3] at hp1 ⊢
                rw [List.length_dropLast, List.length_dropLast] at hp1
                rw [getD_dropLast _ _ (by rw [List.length_dropLast]; omega)]
                rw [getD_dropLast _ _ (by omega)]
                exact hl
            · rw [h3, hb3]
              exact hl
          · intro hwf p hp2 hl hgone
            rcases ht with ⟨-, -, h3, -⟩ | ⟨-, -, h3, -⟩ | ⟨hm2, B, hB, hs, h3, -⟩ |
              ⟨-, -, h3, -⟩
            · rw [h3, hb3] at hgone
              omega
            · rw [h3, hb3] at hgone
              omega
            · rcases hB with hB | ⟨hBe, hB⟩
              · rw [h3, hB, hb3, List.length_dropLast] at hgone
                have hpm : p = s.open_blocks.length - 1 := by omega
                rw [hB, hb3] at hs
                rw [hs, ← hpm, closeSymFor_loose _ hl]
              · rcases scanSwitch_emit_fall_lx _ _ _ _ _ _ hsw hm2 with hlxeq | hg
                · rw [hlxeq] at hBe
                  exact absurd hBe heof
                · have hmeq := hwf s.matched hm2.2 hg
                  rw [h3, hB, hb3, List.length_dropLast, List.length_dropLast] at hgone
                  by_cases hptop : p = s.open_blocks.length - 1
                  · rw [hptop, ← hmeq] at hl
                    obtain ⟨-, hl2⟩ := hl
                    have e1 : FENCED_CODE_BLOCK_TILDE = 16 := rfl
                    have e2 : FENCED_CODE_BLOCK_BACKTICK = 17 := rfl
                    have e3 : LOOSE_LIST_ITEM_MAX_INDENTATION = 15 := rfl
                    rcases hg with hg | hg <;> rw [hg] at hl2 <;> omega
                  · rw [hB, hb3] at hs
                    rw [hs, List.length_dropLast]
                    have hlen2 : 2 ≤ s.open_blocks.length := by omega
                    have hpm : p = s.open_blocks.length - 2 := by omega
                    rw [getD_dropLast _ _ (by omega)]
                    have hidx : s.open_blocks.length - 1 - 1 = p := by omega
                    rw [hidx, closeSymFor_loose _ hl]
            · rw [h3, hb3] at hgone
              omega
      · obtain ⟨iv, cv, lx', hout⟩ := branchIndentPre_some_spec _ _ _ _ hp
        simp only [hout]
        refine ⟨?_, ?_, ?_⟩
        · intro hb
          injection hb with h2
          exact absurd h2 (by decide)
        · intro p hp1 hp2 hl
          exact hl
        · intro hwf p hp2 hl hgone
          have hgone' : s.open_blocks.length ≤ p := hgone
          omega

theorem scan_blank_line_loosens_and_loose_closes_loose_witness :
    (scan ⟨[2], 1, 0, 0, 0, 0, 0, 0⟩ ⟨['\n'], 0, none⟩ (maskOf [.BLANK_LINE])).sym =
      some .BLANK_LINE ∧
    isLooseItem ((scan ⟨[2], 1, 0, 0, 0, 0, 0, 0⟩ ⟨['\n'], 0, none⟩
      (maskOf [.BLANK_LINE])).s.open_blocks.getD 0 0) :=
  ⟨by decide,
   ((scan_blank_line_loosens_and_loose_closes_loose ⟨[2], 1, 0, 0, 0, 0, 0, 0⟩
       ⟨['\n'], 0, none⟩ (maskOf [.BLANK_LINE])).1 (by decide)).2 0 (by decide) (by decide)
     (by decide)⟩
